import Mathlib

/-!
# Verification of the Phoenix.ai API-testing agent core

This file gives a shallow embedding, in Lean 4, of the core of
`src/agent/api_testing/api_testing_agent.py`: the Gherkin scenario model
and text codec (`GherkinGenerator._parse_gherkin_text` and the encoder in
`APITestingAgent.generate_gherkin_from_prompt`), the directive extraction,
HTTP execution and validation loop of
`APITestingAgent.execute_gherkin_scenario`, the value extractor
(`APIValidator._extract_values` / `_get_nested_value`), and the reporter
(`APITestingAgent.generate_test_report`).

Python string operations (`str.strip`, `str.lower`, `str.replace`,
`str.split`, `in`, `str.startswith`) and the two regular expressions used
by the agent (`"([^"]+)"` and `should contain.*?"([^"]+)"`, plus `\d+`)
are modelled by explicit recursive functions over `List Char`, so proofs
can proceed by induction.  The HTTP boundary is modelled by a function
argument producing a `MockResponse` (or a transport-error string); wall
clock readings (timestamps, elapsed times) are threaded as parameters.
-/

namespace Phoenix

/-! ## Python-style string primitives -/

/-- Whitespace characters stripped by Python's `str.strip()` (ASCII range). -/
def isPySpace (c : Char) : Bool :=
  c = ' ' || c = '\t' || c = '\n' || c = '\r' || c = '\x0b' || c = '\x0c'

/-- Drop trailing whitespace from a character list. -/
def dropTrailWs (xs : List Char) : List Char :=
  (xs.reverse.dropWhile isPySpace).reverse

/-- Python's `str.strip()` on a character list. -/
def stripL (xs : List Char) : List Char :=
  dropTrailWs (xs.dropWhile isPySpace)

/-- Python's `str.split(sep)` for a one-character separator: non-collapsing split. -/
def splitCharL (sep : Char) : List Char → List (List Char)
  | [] => [[]]
  | c :: rest =>
    if c = sep then [] :: splitCharL sep rest
    else
      match splitCharL sep rest with
      | l :: ls => (c :: l) :: ls
      | [] => [[c]]

/-- Python's `str.split('\n')` on a character list. -/
def splitNlL : List Char → List (List Char) := splitCharL '\n'

/-- Substring containment (`sub in s` in Python); the empty pattern is contained everywhere. -/
def containsL (pat : List Char) : List Char → Bool
  | [] => pat.isEmpty
  | c :: rest => pat.isPrefixOf (c :: rest) || containsL pat rest

/-- Worker for `str.replace`: when `skip` is positive the current character
belongs to an occurrence already replaced and is dropped; at `skip = 0` a
pattern match emits the replacement and schedules the rest of the occurrence
for skipping. -/
def replaceAux (pat rep : List Char) : Nat → List Char → List Char
  | _, [] => []
  | Nat.succ skip, _ :: rest => replaceAux pat rep skip rest
  | 0, c :: rest =>
    if pat.isPrefixOf (c :: rest) && !pat.isEmpty then
      rep ++ replaceAux pat rep (pat.length - 1) rest
    else
      c :: replaceAux pat rep 0 rest

/-- Python's `str.replace(pat, rep)`: left-to-right, non-overlapping replacement of every
occurrence.  (Only ever used with a non-empty pattern, matching every call site
in the source.) -/
def replaceL (pat rep : List Char) (xs : List Char) : List Char :=
  replaceAux pat rep 0 xs

/-- ASCII lower-casing of one character (`str.lower` restricted to the ASCII
letters actually used by the agent's case-insensitive keyword checks). -/
def lowerChar (c : Char) : Char :=
  if 'A' ≤ c && c ≤ 'Z' then Char.ofNat (c.toNat + 32) else c

/-- Python's `str.lower()` on a `String`. -/
def pyLower (s : String) : String := ⟨s.data.map lowerChar⟩

/-- Python's `str.strip()` on a `String`. -/
def pyStrip (s : String) : String := ⟨stripL s.data⟩

/-- Python's `sub in s` on `String`s. -/
def pyContains (s sub : String) : Bool := containsL sub.data s.data

/-- Python's `s.startswith(pre)` on `String`s. -/
def pyStartsWith (s pre : String) : Bool := pre.data.isPrefixOf s.data

/-- Python's `s.replace(pat, rep)` on `String`s. -/
def pyReplace (s pat rep : String) : String := ⟨replaceL pat.data rep.data s.data⟩

/-- Python's `s.split('\n')` on `String`s. -/
def pySplitLines (s : String) : List String := (splitNlL s.data).map (⟨·⟩)

/-- The capture group of the first match of the regex `"([^"]+)"` (used by
`execute_gherkin_scenario` to pull a URL out of a scenario line): the content
of the first non-empty double-quoted run; adjacent `""` pairs are skipped, as
the regex's `[^"]+` requires at least one non-quote character. -/
def firstQuotedL : List Char → Option (List Char)
  | [] => none
  | c :: rest =>
    if c = '"' then
      let content := rest.takeWhile (fun d => d ≠ '"')
      if content.isEmpty then firstQuotedL rest
      else if (rest.drop content.length).isEmpty then none
      else some content
    else firstQuotedL rest

/-- The value of a non-empty list of decimal digits. -/
def digitsToNat (ds : List Char) : Nat :=
  ds.foldl (fun n c => n * 10 + (c.toNat - 48)) 0

/-- The first match of the regex `\d+`: the first maximal run of decimal
digits, as a natural number (used for `status code should be <n>` lines). -/
def firstNatL (xs : List Char) : Option Nat :=
  let digits := (xs.dropWhile (fun c => !c.isDigit)).takeWhile Char.isDigit
  if digits.isEmpty then none else some (digitsToNat digits)

/-- Python's `int(s)` on the text between brackets of a path segment:
optional surrounding whitespace, an optional sign, then decimal digits
(digit-group underscores are not modelled; no path in the repository uses
them).  `none` is the `ValueError` case. -/
def parseIntL (xs : List Char) : Option Int :=
  let t := stripL xs
  let core : List Char → Option Nat := fun ds =>
    if ds.isEmpty || !ds.all Char.isDigit then none else some (digitsToNat ds)
  match t with
  | '-' :: ds => (core ds).map (fun n => -(n : Int))
  | '+' :: ds => (core ds).map (fun n => (n : Int))
  | ds => (core ds).map (fun n => (n : Int))

/-- The capture group of the first match of
`re.search(r'should contain.*?"([^"]+)"', line, re.IGNORECASE)`: the first
non-empty quoted run after the first occurrence of `should contain`
(case-insensitively) that is followed by such a run.  Since a quoted run in a
later suffix is also one in an earlier suffix, searching from the first
phrase occurrence is equivalent to the regex's leftmost-match rule. -/
def containLiteralL : List Char → Option (List Char)
  | [] => none
  | c :: rest =>
    if ((c :: rest).take 14).map lowerChar = "should contain".data then
      firstQuotedL ((c :: rest).drop 14)
    else containLiteralL rest

/-! ## JSON values and `json.dumps`

The agent's mocked response bodies are JSON values; `json.dumps` (with its
default separators `", "` / `": "` and `ensure_ascii=True`) serializes them
for the `should contain` substring checks. -/

/-- A JSON value as produced by `response.json()`.  Numbers are restricted to
integers (every number appearing in the repository's scenarios and examples is
an integer). -/
inductive Json where
  | null : Json
  | bool : Bool → Json
  | num : Int → Json
  | str : String → Json
  | arr : List Json → Json
  | obj : List (String × Json) → Json

/-- Python's `isinstance(x, list)` on a parsed JSON value. -/
def Json.isArr : Json → Bool
  | .arr _ => true
  | _ => false

/-- Lower-case hexadecimal digit, as used by `json.dumps` `\uXXXX` escapes. -/
def hexDigitChar (n : Nat) : Char :=
  if n < 10 then Char.ofNat (48 + n) else Char.ofNat (87 + n)

/-- Four-digit lower-case hex rendering of a code unit. -/
def hex4 (n : Nat) : List Char :=
  [hexDigitChar (n / 4096 % 16), hexDigitChar (n / 256 % 16),
   hexDigitChar (n / 16 % 16), hexDigitChar (n % 16)]

/-- The `json.dumps` escaping of a single character (`ensure_ascii=True`):
the two-character escapes for the JSON specials, `\uXXXX` for other control
or non-ASCII characters (with surrogate pairs above the BMP). -/
def escapeChar (c : Char) : List Char :=
  if c = '"' then ['\\', '"']
  else if c = '\\' then ['\\', '\\']
  else if c = '\n' then ['\\', 'n']
  else if c = '\t' then ['\\', 't']
  else if c = '\r' then ['\\', 'r']
  else if c = '\x08' then ['\\', 'b']
  else if c = '\x0c' then ['\\', 'f']
  else if c.toNat < 32 || (127 ≤ c.toNat && c.toNat ≤ 65535) then '\\' :: 'u' :: hex4 c.toNat
  else if c.toNat > 65535 then
    '\\' :: 'u' :: hex4 (55296 + (c.toNat - 65536) / 1024) ++
      '\\' :: 'u' :: hex4 (56320 + (c.toNat - 65536) % 1024)
  else [c]

/-- The `json.dumps` rendering of a string, quotes included. -/
def dumpStr (s : String) : List Char :=
  '"' :: s.data.flatMap escapeChar ++ ['"']

mutual

/-- Serialization `json.dumps(v)` with the default separators `", "` and `": "`. -/
def dumpsL : Json → List Char
  | .null => "null".data
  | .bool true => "true".data
  | .bool false => "false".data
  | .num n => (toString n).data
  | .str s => dumpStr s
  | .arr xs => '[' :: dumpsArr xs ++ [']']
  | .obj fs => '{' :: dumpsObj fs ++ ['}']

/-- Comma-joined array elements. -/
def dumpsArr : List Json → List Char
  | [] => []
  | [x] => dumpsL x
  | x :: y :: rest => dumpsL x ++ ',' :: ' ' :: dumpsArr (y :: rest)

/-- Comma-joined object members. -/
def dumpsObj : List (String × Json) → List Char
  | [] => []
  | [(k, v)] => dumpStr k ++ ':' :: ' ' :: dumpsL v
  | (k, v) :: kv :: rest => dumpStr k ++ ':' :: ' ' :: dumpsL v ++ ',' :: ' ' :: dumpsObj (kv :: rest)

end

/-- Serialization `json.dumps(v)` as a `String`. -/
def Json.dumps (v : Json) : String := ⟨dumpsL v⟩

/-! ## Scenario model and text codec

`GherkinScenario` (the dataclass), the encoder in
`APITestingAgent.generate_gherkin_from_prompt` (lines 336-344) and the
decoder `GherkinGenerator._parse_gherkin_text` (lines 133-174). -/

/-- The `GherkinScenario` dataclass.  The Python field `then` is a Lean
keyword, so the step lists are named `givenSteps`/`whenSteps`/`thenSteps`. -/
structure GherkinScenario where
  feature : String
  scenario : String
  givenSteps : List String
  whenSteps : List String
  thenSteps : List String
  background : Option (List String) := none

/-- Which of Given/When/Then was most recently active (`current_section`). -/
inductive StepSection where
  | given | strWhen | strThen
deriving DecidableEq

/-- Parser state for `_parse_gherkin_text`. -/
structure ParseState where
  feature : String
  scenario : String
  givenSteps : List String
  whenSteps : List String
  thenSteps : List String
  currentSection : Option StepSection

/-- Initial parser state (empty strings and lists, no active section). -/
def initParseState : ParseState := ⟨"", "", [], [], [], none⟩

/-- One iteration of the line loop of `_parse_gherkin_text`: trim the line,
classify it by leading keyword, `str.replace` the keyword away (everywhere in
the line — this is `line.replace(kw, '')`, not a prefix removal) and append. -/
def parseGherkinLine (st : ParseState) (rawLine : String) : ParseState :=
  let line := pyStrip rawLine
  if pyStartsWith line "Feature:" then
    { st with feature := pyStrip (pyReplace line "Feature:" "") }
  else if pyStartsWith line "Scenario:" then
    { st with scenario := pyStrip (pyReplace line "Scenario:" "") }
  else if pyStartsWith line "Given" then
    { st with givenSteps := st.givenSteps ++ [pyStrip (pyReplace line "Given" "")],
              currentSection := some .given }
  else if pyStartsWith line "When" then
    { st with whenSteps := st.whenSteps ++ [pyStrip (pyReplace line "When" "")],
              currentSection := some .strWhen }
  else if pyStartsWith line "Then" then
    { st with thenSteps := st.thenSteps ++ [pyStrip (pyReplace line "Then" "")],
              currentSection := some .strThen }
  else if pyStartsWith line "And" then
    let step := pyStrip (pyReplace line "And" "")
    match st.currentSection with
    | some .given => { st with givenSteps := st.givenSteps ++ [step] }
    | some .strWhen => { st with whenSteps := st.whenSteps ++ [step] }
    | some .strThen => { st with thenSteps := st.thenSteps ++ [step] }
    | none => st
  else st

/-- The decoder `GherkinGenerator._parse_gherkin_text`: strip the text, split it at
newlines and fold the line classifier over the lines. -/
def parseGherkinText (text : String) : GherkinScenario :=
  let st := ((pySplitLines (pyStrip text))).foldl parseGherkinLine initParseState
  { feature := st.feature, scenario := st.scenario, givenSteps := st.givenSteps,
    whenSteps := st.whenSteps, thenSteps := st.thenSteps, background := none }

/-- Concatenation of a list of strings (the `+=` accumulation of the encoder). -/
def concatAll : List String → String
  | [] => ""
  | s :: rest => s ++ concatAll rest

/-- The encoder of `APITestingAgent.generate_gherkin_from_prompt`
(lines 336-344): `Feature:` line, blank line, `Scenario:` line, then the
Given block, the When block and the Then block, two-space indented. -/
def generateGherkinText (s : GherkinScenario) : String :=
  "Feature: " ++ (s.feature ++ ("\n\n" ++
    ("Scenario: " ++ (s.scenario ++ ("\n" ++
      (concatAll (s.givenSteps.map (fun st => "  Given " ++ (st ++ "\n"))) ++
        (concatAll (s.whenSteps.map (fun st => "  When " ++ (st ++ "\n"))) ++
          concatAll (s.thenSteps.map (fun st => "  Then " ++ (st ++ "\n"))))))))))

/-! ## Directive extraction

The first line loop of `APITestingAgent.execute_gherkin_scenario`
(lines 570-607): scenario name, URL (overwritten on every matching line),
HTTP method (last verbatim keyword wins) and expected status (last
`status code should be` line wins, first digit run of the line). -/

/-- The execution parameters extracted from the Gherkin text, with the
defaults `api_url = None`, `method = "GET"`, `expected_status = 200`,
`scenario_name = "API Test"`. -/
structure Directives where
  apiUrl : Option String
  method : String
  expectedStatus : Nat
  scenarioName : String

/-- The defaults set before the extraction loop. -/
def initDirectives : Directives :=
  { apiUrl := none, method := "GET", expectedStatus := 200, scenarioName := "API Test" }

/-- One iteration of the directive-extraction loop: the line is stripped,
then each of the four independent checks may update its field. -/
def processDirLine (d : Directives) (rawLine : String) : Directives :=
  let line := pyStrip rawLine
  let d1 :=
    if pyStartsWith line "Scenario:" then
      { d with scenarioName := pyStrip (pyReplace line "Scenario:" "") }
    else d
  let d2 :=
    if pyContains (pyLower line) "endpoint is" || pyContains (pyLower line) "url is" then
      match firstQuotedL line.data with
      | some u => { d1 with apiUrl := some ⟨u⟩ }
      | none => d1
    else d1
  let d3 :=
    if pyContains line "GET request" then { d2 with method := "GET" }
    else if pyContains line "POST request" then { d2 with method := "POST" }
    else if pyContains line "PUT request" then { d2 with method := "PUT" }
    else if pyContains line "DELETE request" then { d2 with method := "DELETE" }
    else d2
  if pyContains (pyLower line) "status code should be" then
    match firstNatL line.data with
    | some n => { d3 with expectedStatus := n }
    | none => d3
  else d3

/-- The list `gherkin_text.strip().split('\n')` both loops iterate. -/
def gherkinLines (gherkinText : String) : List String :=
  pySplitLines (pyStrip gherkinText)

/-- The directives extracted from a scenario text by the first loop. -/
def directivesOf (gherkinText : String) : Directives :=
  (gherkinLines gherkinText).foldl processDirLine initDirectives

/-! ## Value extractor

`APIValidator._get_nested_value` (lines 269-283) walks a dot-separated path,
one segment at a time; a segment of the form `name[index]` is a field lookup
followed by an integer subscript.  Python exceptions (`KeyError`,
`IndexError`, `TypeError`, `ValueError`) become the `Except` error channel,
carrying the `str(e)` text that `_extract_values` embeds in its
`"Error extracting: ..."` value. -/

/-- Python subscripting `cur[key]` with a string key. -/
def getItem (cur : Json) (key : String) : Except String Json :=
  match cur with
  | .obj fs =>
    match fs.lookup key with
    | some v => .ok v
    | none => .error ("'" ++ (key ++ "'"))
  | .arr _ => .error "list indices must be integers or slices, not str"
  | .str _ => .error "string indices must be integers"
  | .null => .error "'NoneType' object is not subscriptable"
  | .bool _ => .error "'bool' object is not subscriptable"
  | .num _ => .error "'int' object is not subscriptable"

/-- Python subscripting `cur[i]` with an integer index (negative indices
count from the end, exactly as in Python). -/
def getIndex (cur : Json) (i : Int) : Except String Json :=
  match cur with
  | .arr xs =>
    let j := if i < 0 then i + xs.length else i
    if j < 0 then .error "list index out of range"
    else
      match xs[j.toNat]? with
      | some v => .ok v
      | none => .error "list index out of range"
  | .str s =>
    let j := if i < 0 then i + s.data.length else i
    if j < 0 then .error "string index out of range"
    else
      match s.data[j.toNat]? with
      | some c => .ok (.str ⟨[c]⟩)
      | none => .error "string index out of range"
  | .obj _ => .error (toString i)
  | .null => .error "'NoneType' object is not subscriptable"
  | .bool _ => .error "'bool' object is not subscriptable"
  | .num _ => .error "'int' object is not subscriptable"

/-- One path segment of `_get_nested_value`: if the segment carries `[` and
`]`, split out the field name and the bracketed index (`int(...)` parse
failures surface as the `ValueError` text), look the field up and subscript
it; otherwise a plain field lookup. -/
def getSegment (cur : Json) (key : String) : Except String Json :=
  if pyContains key "[" && pyContains key "]" then
    let parts := splitCharL '[' key.data
    let keyName : String := ⟨parts.headD []⟩
    let idxText : String := ⟨(splitCharL ']' (parts.getD 1 [])).headD []⟩
    match parseIntL idxText.data with
    | none => .error ("invalid literal for int() with base 10: '" ++ (idxText ++ "'"))
    | some i =>
      match getItem cur keyName with
      | .ok v => getIndex v i
      | .error e => .error e
  else getItem cur key

/-- The resolver `APIValidator._get_nested_value`: fold the segment resolver over
`path.split('.')`. -/
def getNestedValue (responseData : Json) (path : String) : Except String Json :=
  (splitCharL '.' path.data).foldlM (fun cur seg => getSegment cur ⟨seg⟩) responseData

/-- The extractor `APIValidator._extract_values`: resolve every extractor independently;
a failed path stores `"Error extracting: <message>"` as that key's value and
the remaining keys are still processed. -/
def extractValues (responseData : Json) (extractors : List (String × String)) :
    List (String × Json) :=
  extractors.map (fun kp =>
    match getNestedValue responseData kp.2 with
    | .ok v => (kp.1, v)
    | .error e => (kp.1, .str ("Error extracting: " ++ e)))

/-! ## Validation loop

The second line loop of `execute_gherkin_scenario` (lines 647-664):
the structural array assertion and the `should contain` content assertions,
accumulating validation errors and `contains_<literal>` extraction keys. -/

/-- The mutable pair `(validation_errors, extracted_values)` of the loop. -/
structure ValState where
  validationErrors : List String
  extractedValues : List (String × Bool)

/-- Does a line declare the structural array assertion?
(`'should be a json array' in line_lower or 'should be an array' in line_lower`). -/
def isArrayAssertLine (line : String) : Bool :=
  pyContains (pyLower line) "should be a json array" ||
    pyContains (pyLower line) "should be an array"

/-- One iteration of the validation loop over a raw (unstripped) line. -/
def checkLine (responseData : Json) (st : ValState) (line : String) : ValState :=
  let lineLower := pyLower line
  let st1 :=
    if isArrayAssertLine line then
      if !responseData.isArr then
        { st with validationErrors := st.validationErrors ++ ["Response is not a JSON array"] }
      else st
    else st
  if pyContains lineLower "should contain" then
    match containLiteralL line.data with
    | some lit =>
      let searchValue : String := ⟨lit⟩
      if !pyContains responseData.dumps searchValue then
        { st1 with validationErrors := st1.validationErrors ++
            ["Response does not contain '" ++ (searchValue ++ "'")] }
      else
        { st1 with extractedValues := st1.extractedValues ++
            [("contains_" ++ pyReplace searchValue " " "_", true)] }
    | none => st1
  else st1

/-! ## Execution of a scenario

`APITestingAgent.execute_gherkin_scenario` (lines 554-739).  The HTTP
boundary (`requests.request`) is a function argument from URL and method to
either a transport-error message (`requests.RequestException`) or a
`MockResponse`; the wall clock readings are the `now`/`elapsed` parameters. -/

/-- A mocked HTTP response: status code, `response.elapsed` in seconds, the
parse attempt `response.json()` (`none` = the body is not valid JSON) and
the raw `response.text` used by the `{'text': ...}` fallback. -/
structure MockResponse where
  statusCode : Nat
  elapsedSeconds : Rat
  jsonBody : Option Json
  text : String

/-- The parsed body used by the validation loop: `response.json()` when the
body is valid JSON, the `{'text': response.text}` fallback otherwise. -/
def responseBody (response : MockResponse) : Json :=
  match response.jsonBody with
  | some j => j
  | none => Json.obj [("text", Json.str response.text)]

/-- The `api_response` dict `{'status_code', 'response_time_ms', 'data'}`
stored in the recorded `TestResult`. -/
structure ApiResponseInfo where
  statusCode : Nat
  responseTimeMs : Rat
  responseData : Json

/-- The `TestResult` dataclass as built by `execute_gherkin_scenario`
(`ui_validation_result` is never set on this code path). -/
structure TestRecord where
  success : Bool
  scenarioName : String
  timestamp : String
  apiResponse : Option ApiResponseInfo
  uiValidationResult : Option Json
  extractedValues : Option (List (String × Bool))
  errors : Option (List String)
  executionTime : Rat

/-- The local `Status` enum of `execute_gherkin_scenario`. -/
inductive TestStatus where
  | passed | failed | skipped
deriving DecidableEq

/-- The `FormattedTestResult` dataclass returned on successful transport. -/
structure FormattedTestResult where
  status : TestStatus
  executionTime : Rat
  timestamp : String
  apiEndpoint : String
  statusCode : Nat
  responseTimeMs : Rat
  extractedValues : List (String × Bool)
  validationErrors : List String
  message : String
  responseData : Json

/-- Python's `', '.join(xs)`. -/
def joinComma : List String → String
  | [] => ""
  | [s] => s
  | s :: t :: rest => s ++ (", " ++ joinComma (t :: rest))

/-- What `execute_gherkin_scenario` produces: either an early-return
`TestResult` (missing URL, or transport failure) or the pair of the
`TestResult` appended to `self.test_results` and the returned
`FormattedTestResult`. -/
inductive ExecOutcome where
  | failedResult : TestRecord → ExecOutcome
  | executed : TestRecord → FormattedTestResult → ExecOutcome

/-- The executor `APITestingAgent.execute_gherkin_scenario`: extract directives; without a
URL return the failed `TestResult` (no HTTP call is made — the result does
not consult `http` at all); otherwise perform the one call, parse the body
with the `{'text': ...}` fallback, run the status check and the validation
loop, and build the result records. -/
def executeGherkinScenario (gherkinText : String)
    (http : String → String → Except String MockResponse)
    (now : String) (elapsed : Rat) : ExecOutcome :=
  let lines := gherkinLines gherkinText
  let d := directivesOf gherkinText
  match d.apiUrl with
  | none =>
    .failedResult
      { success := false, scenarioName := d.scenarioName, timestamp := now,
        apiResponse := none, uiValidationResult := none, extractedValues := none,
        errors := some ["Could not extract API URL from Gherkin scenario"],
        executionTime := elapsed }
  | some apiUrl =>
    match http apiUrl d.method with
    | .error e =>
      .failedResult
        { success := false, scenarioName := d.scenarioName, timestamp := now,
          apiResponse := none, uiValidationResult := none, extractedValues := none,
          errors := some ["API request failed: " ++ e],
          executionTime := elapsed }
    | .ok response =>
      let responseTimeMs := response.elapsedSeconds * 1000
      let responseData := responseBody response
      let statusOk := response.statusCode == d.expectedStatus
      let initErrors : List String :=
        if statusOk then []
        else ["Expected status " ++ (toString d.expectedStatus ++ (", got " ++ toString response.statusCode))]
      let finalSt := lines.foldl (checkLine responseData) ⟨initErrors, []⟩
      let success := finalSt.validationErrors.isEmpty && statusOk
      let record : TestRecord :=
        { success := success, scenarioName := d.scenarioName, timestamp := now,
          apiResponse := some ⟨response.statusCode, responseTimeMs, responseData⟩,
          uiValidationResult := none,
          extractedValues := some finalSt.extractedValues,
          errors := if finalSt.validationErrors.isEmpty then none else some finalSt.validationErrors,
          executionTime := elapsed }
      let formatted : FormattedTestResult :=
        { status := if success then .passed else .failed,
          executionTime := elapsed, timestamp := now, apiEndpoint := apiUrl,
          statusCode := response.statusCode, responseTimeMs := responseTimeMs,
          extractedValues := finalSt.extractedValues,
          validationErrors := finalSt.validationErrors,
          message := if success then "Test passed successfully"
                     else "Test failed: " ++ joinComma finalSt.validationErrors,
          responseData := responseData }
      .executed record formatted

/-! ## Reporter

`APITestingAgent.generate_test_report` (lines 516-552): summary statistics
over the recorded results (with the divide-by-zero guard on the success
rate) followed by one section per result.  Python's `{:.1f}`/`{:.2f}`
formatting is modelled on exact rationals with round-half-to-even; on the
integer values produced by an empty log the two agree exactly. -/

/-- Left-pad a digit string with zeros to the given width. -/
def padZeros (n : Nat) (s : String) : String :=
  (⟨List.replicate (n - s.data.length) '0'⟩ : String) ++ s

/-- Fixed-point rendering `{:.prec f}` of a rational in round-half-to-even,
computed on the numerator and denominator so the arithmetic stays on
integers.  `scaled` is `q·10^prec` rounded half to even. -/
def formatFixed (prec : Nat) (q : Rat) : String :=
  let d : Int := (q.den : Int)
  let sn : Int := q.num * ((10 : Int) ^ prec)
  let f : Int := sn.fdiv d
  let r : Int := sn - f * d
  let scaled : Int :=
    if 2 * r < d then f
    else if d < 2 * r then f + 1
    else if f % 2 = 0 then f else f + 1
  let sign := if scaled < 0 then "-" else ""
  let a := scaled.natAbs
  if prec = 0 then sign ++ toString a
  else sign ++ (toString (a / 10 ^ prec) ++ ("." ++ padZeros prec (toString (a % 10 ^ prec))))

mutual

/-- Serialization `json.dumps(v, indent=2)` at a given current indentation. -/
def dumpsIndL (ind : Nat) : Json → List Char
  | .null => "null".data
  | .bool true => "true".data
  | .bool false => "false".data
  | .num n => (toString n).data
  | .str s => dumpStr s
  | .arr [] => "[]".data
  | .arr (x :: xs) =>
    '[' :: '\n' :: (dumpsIndArr (ind + 2) (x :: xs) ++ ('\n' :: List.replicate ind ' ' ++ [']']))
  | .obj [] => "{}".data
  | .obj (kv :: fs) =>
    '{' :: '\n' :: (dumpsIndObj (ind + 2) (kv :: fs) ++ ('\n' :: List.replicate ind ' ' ++ ['}']))

/-- Indented array elements, comma-and-newline separated. -/
def dumpsIndArr (ind : Nat) : List Json → List Char
  | [] => []
  | [x] => List.replicate ind ' ' ++ dumpsIndL ind x
  | x :: y :: rest =>
    List.replicate ind ' ' ++ dumpsIndL ind x ++ (',' :: '\n' :: dumpsIndArr ind (y :: rest))

/-- Indented object members, comma-and-newline separated. -/
def dumpsIndObj (ind : Nat) : List (String × Json) → List Char
  | [] => []
  | [(k, v)] => List.replicate ind ' ' ++ dumpStr k ++ (':' :: ' ' :: dumpsIndL ind v)
  | (k, v) :: kv :: rest =>
    List.replicate ind ' ' ++ dumpStr k ++ (':' :: ' ' :: dumpsIndL ind v) ++
      (',' :: '\n' :: dumpsIndObj ind (kv :: rest))

end

/-- Serialization `json.dumps(v, indent=2)` as a `String`. -/
def dumpsIndent2 (v : Json) : String := ⟨dumpsIndL 0 v⟩

/-- The success rate computed by `generate_test_report`:
`(passed/total*100) if total > 0 else 0`. -/
def passRate (results : List TestRecord) : Rat :=
  let total := results.length
  let passed := (results.filter (fun r => r.success)).length
  if total > 0 then (passed : Rat) / (total : Rat) * 100 else 0

/-- The per-result section of the report. -/
def renderResult (i : Nat) (r : TestRecord) : String :=
  let statusTxt := if r.success then "✅ PASSED" else "❌ FAILED"
  let s := "### Test " ++ (toString i ++ (": " ++ (r.scenarioName ++ (" " ++ (statusTxt ++ "\n")))))
  let s := s ++ ("- Execution Time: " ++ (formatFixed 2 r.executionTime ++ "s\n"))
  let s := s ++ ("- Timestamp: " ++ (r.timestamp ++ "\n"))
  let s := s ++
    (match r.apiResponse with
     | some info => "- API Status: " ++ (toString info.statusCode ++ "\n")
     | none => "")
  let s := s ++
    (match r.extractedValues with
     | some ev =>
       if ev.isEmpty then ""
       else "- Extracted Values: " ++
         (dumpsIndent2 (Json.obj (ev.map (fun kb => (kb.1, Json.bool kb.2)))) ++ "\n")
     | none => "")
  let s := s ++
    (match r.errors with
     | some errs =>
       if errs.isEmpty then ""
       else "- Errors:\n" ++ concatAll (errs.map (fun e => "  - " ++ (e ++ "\n")))
     | none => "")
  s ++ "\n"

/-- The enumerated result sections, numbered from 1. -/
def renderResults (i : Nat) : List TestRecord → String
  | [] => ""
  | r :: rest => renderResult i r ++ renderResults (i + 1) rest

/-- The reporter `APITestingAgent.generate_test_report` (the `datetime.now()` reading is
the `now` parameter). -/
def generateTestReport (results : List TestRecord) (now : String) : String :=
  let total := results.length
  let passed := (results.filter (fun r => r.success)).length
  let failed := total - passed
  "# API Testing Report\n\n" ++
    ("Generated: " ++ (now ++ ("\n\n" ++
      ("## Summary\n" ++
        ("- Total Tests: " ++ (toString total ++ ("\n" ++
          ("- Passed: " ++ (toString passed ++ ("\n" ++
            ("- Failed: " ++ (toString failed ++ ("\n" ++
              ("- Success Rate: " ++ (formatFixed 1 (passRate results) ++ ("%\n\n" ++
                ("## Test Results\n\n" ++ renderResults 1 results)))))))))))))))))

/-! ## Basic lemmas about the string primitives -/

theorem containsL_cons (pat : List Char) (c : Char) (xs : List Char) :
    containsL pat (c :: xs) = (pat.isPrefixOf (c :: xs) || containsL pat xs) := rfl

theorem containsL_append_right (pat : List Char) (xs ys : List Char)
    (h : containsL pat ys = true) : containsL pat (xs ++ ys) = true := by
  induction xs with
  | nil => simpa using h
  | cons c rest ih => simp [containsL_cons, ih]

/-- Containment in a right factor extends to the concatenation. -/
theorem pyContains_append_right (a b sub : String) (h : pyContains b sub = true) :
    pyContains (a ++ b) sub = true := by
  show containsL sub.data (a.data ++ b.data) = true
  exact containsL_append_right _ _ _ h

/-! ## The validation loop as a flat map

`checkLine` threads an accumulating state; `lineErrors`/`lineExtracts` give
the per-line contributions, and the fold is their concatenation. -/

/-- The validation errors a single line contributes. -/
def lineErrors (rd : Json) (line : String) : List String :=
  (if isArrayAssertLine line && !rd.isArr then ["Response is not a JSON array"] else []) ++
    (if pyContains (pyLower line) "should contain" then
      match containLiteralL line.data with
      | some lit =>
        if !pyContains rd.dumps ⟨lit⟩ then
          ["Response does not contain '" ++ ((⟨lit⟩ : String) ++ "'")]
        else []
      | none => []
    else [])

/-- The extraction entries a single line contributes. -/
def lineExtracts (rd : Json) (line : String) : List (String × Bool) :=
  if pyContains (pyLower line) "should contain" then
    match containLiteralL line.data with
    | some lit =>
      if !pyContains rd.dumps ⟨lit⟩ then []
      else [("contains_" ++ pyReplace ⟨lit⟩ " " "_", true)]
    | none => []
  else []

theorem checkLine_eq (rd : Json) (st : ValState) (line : String) :
    checkLine rd st line =
      ⟨st.validationErrors ++ lineErrors rd line,
       st.extractedValues ++ lineExtracts rd line⟩ := by
  cases hA : isArrayAssertLine line <;> cases hArr : rd.isArr <;>
    cases hC : pyContains (pyLower line) "should contain" <;>
      simp only [checkLine, lineErrors, lineExtracts, hA, hArr, hC, Bool.not_true,
        Bool.not_false, Bool.false_and, Bool.true_and, if_true, if_false,
        Bool.false_eq_true, ite_false, ite_true, List.append_nil, List.nil_append] <;>
      first
        | rfl
        | (rcases hL : containLiteralL line.data with _ | lit
           all_goals simp only [hL, List.append_nil]
           all_goals
             first
               | rfl
               | (cases hP : pyContains rd.dumps ⟨lit⟩ <;>
                   simp [hP, List.append_nil]))

theorem foldl_checkLine (rd : Json) (lines : List String) (st : ValState) :
    lines.foldl (checkLine rd) st =
      ⟨st.validationErrors ++ lines.flatMap (lineErrors rd),
       st.extractedValues ++ lines.flatMap (lineExtracts rd)⟩ := by
  induction lines generalizing st with
  | nil => simp
  | cons l rest ih =>
    simp only [List.foldl_cons, checkLine_eq, ih, List.flatMap_cons, List.append_assoc]

/-! ## Unfolding the execution of a scenario -/

/-- The status-mismatch error list built before the validation loop:
empty on a match, the `"Expected status X, got Y"` singleton otherwise. -/
def statusErrs (g : String) (resp : MockResponse) : List String :=
  if resp.statusCode == (directivesOf g).expectedStatus then []
  else ["Expected status " ++ (toString (directivesOf g).expectedStatus ++
          (", got " ++ toString resp.statusCode))]

/-- With a URL present and a transport-level success, the execution returns
the `.executed` pair, whose validation errors are the status check followed
by the per-line contributions and whose extraction entries are the per-line
contributions. -/
theorem exec_ok (g now : String) (el : Rat) (u : String) (resp : MockResponse)
    (hu : (directivesOf g).apiUrl = some u) :
    executeGherkinScenario g (fun _ _ => Except.ok resp) now el =
      .executed
        { success := (statusErrs g resp ++
              (gherkinLines g).flatMap (lineErrors (responseBody resp))).isEmpty &&
            (resp.statusCode == (directivesOf g).expectedStatus),
          scenarioName := (directivesOf g).scenarioName, timestamp := now,
          apiResponse := some ⟨resp.statusCode, resp.elapsedSeconds * 1000, responseBody resp⟩,
          uiValidationResult := none,
          extractedValues := some ((gherkinLines g).flatMap (lineExtracts (responseBody resp))),
          errors :=
            if (statusErrs g resp ++
                (gherkinLines g).flatMap (lineErrors (responseBody resp))).isEmpty then none
            else some (statusErrs g resp ++
              (gherkinLines g).flatMap (lineErrors (responseBody resp))),
          executionTime := el }
        { status :=
            if (statusErrs g resp ++
                  (gherkinLines g).flatMap (lineErrors (responseBody resp))).isEmpty &&
                (resp.statusCode == (directivesOf g).expectedStatus) then .passed else .failed,
          executionTime := el, timestamp := now, apiEndpoint := u,
          statusCode := resp.statusCode, responseTimeMs := resp.elapsedSeconds * 1000,
          extractedValues := (gherkinLines g).flatMap (lineExtracts (responseBody resp)),
          validationErrors := statusErrs g resp ++
            (gherkinLines g).flatMap (lineErrors (responseBody resp)),
          message :=
            if (statusErrs g resp ++
                  (gherkinLines g).flatMap (lineErrors (responseBody resp))).isEmpty &&
                (resp.statusCode == (directivesOf g).expectedStatus) then
              "Test passed successfully"
            else
              "Test failed: " ++ joinComma (statusErrs g resp ++
                (gherkinLines g).flatMap (lineErrors (responseBody resp))),
          responseData := responseBody resp } := by
  simp only [executeGherkinScenario, hu, foldl_checkLine, statusErrs, List.nil_append]

/-! ## C4: missing endpoint -/

/-- C4: when no line yields a URL, execution returns the failed
`TestResult` carrying the explanatory error about the missing API URL, and
does not depend on the HTTP boundary at all (no call is attempted). -/
theorem c4_missing_url (g now : String) (el : Rat)
    (h : (directivesOf g).apiUrl = none) :
    (∀ http₁ http₂, executeGherkinScenario g http₁ now el =
        executeGherkinScenario g http₂ now el) ∧
    ∀ http, executeGherkinScenario g http now el =
      .failedResult
        { success := false, scenarioName := (directivesOf g).scenarioName, timestamp := now,
          apiResponse := none, uiValidationResult := none, extractedValues := none,
          errors := some ["Could not extract API URL from Gherkin scenario"],
          executionTime := el } := by
  have k : ∀ http, executeGherkinScenario g http now el =
      .failedResult
        { success := false, scenarioName := (directivesOf g).scenarioName, timestamp := now,
          apiResponse := none, uiValidationResult := none, extractedValues := none,
          errors := some ["Could not extract API URL from Gherkin scenario"],
          executionTime := el } := by
    intro http
    simp only [executeGherkinScenario, h]
  exact ⟨fun http₁ http₂ => (k http₁).trans (k http₂).symm, k⟩

/-- Witness for C4 at the concrete scenario text `"When I send a GET request"`
(which has no endpoint line): extraction yields no URL, and execution returns
the failed record for every HTTP boundary, here one that would answer if
called. -/
theorem c4_missing_url_witness :
    (directivesOf "When I send a GET request").apiUrl = none ∧
    executeGherkinScenario "When I send a GET request"
        (fun _ _ => Except.ok { statusCode := 200, elapsedSeconds := 0,
                                jsonBody := some (.arr []), text := "" }) "t" 0 =
      .failedResult
        { success := false, scenarioName := "API Test", timestamp := "t",
          apiResponse := none, uiValidationResult := none, extractedValues := none,
          errors := some ["Could not extract API URL from Gherkin scenario"],
          executionTime := 0 } :=
  ⟨rfl, (c4_missing_url "When I send a GET request" "t" 0 rfl).2 _⟩

/-! ## C2: which endpoint line wins -/

/-- The URL a single raw line contributes: the first quoted run of the
stripped line, provided the line matches `endpoint is` / `url is`
case-insensitively. -/
def lineUrl (rawLine : String) : Option String :=
  let line := pyStrip rawLine
  if pyContains (pyLower line) "endpoint is" || pyContains (pyLower line) "url is" then
    match firstQuotedL line.data with
    | some u => some ⟨u⟩
    | none => none
  else none

theorem processDirLine_apiUrl (d : Directives) (raw : String) :
    (processDirLine d raw).apiUrl = (lineUrl raw).or d.apiUrl := by
  simp only [processDirLine, lineUrl]
  repeat' split
  all_goals rfl

theorem foldl_apiUrl (lines : List String) : ∀ d : Directives,
    (lines.foldl processDirLine d).apiUrl =
      ((lines.filterMap lineUrl).getLast?).or d.apiUrl := by
  induction lines with
  | nil => intro d; simp
  | cons l rest ih =>
    intro d
    rw [List.foldl_cons, ih, List.filterMap_cons]
    cases hl : lineUrl l with
    | none => simp [processDirLine_apiUrl, hl]
    | some u =>
      cases hrest : rest.filterMap lineUrl with
      | nil => simp [processDirLine_apiUrl, hl]
      | cons v vs =>
        rw [List.getLast?_cons_cons]
        cases hg : (v :: vs).getLast? with
        | none => simp at hg
        | some w => simp [processDirLine_apiUrl, hl, hg]

/-- The two-endpoint-line scenario text of the counterexample. -/
def c2Text : String :=
  "Given the endpoint is \"http://a\"\nGiven the endpoint is \"http://b\""

/-- Counterexample to C2 as stated: both lines match `endpoint is` and carry
a quoted URL (`lineUrl` of the first line is `"http://a"`), yet directive
extraction returns the second line's URL — the last match wins, not the
first. -/
theorem c2_counterexample :
    (directivesOf c2Text).apiUrl = some "http://b" ∧
    lineUrl "Given the endpoint is \"http://a\"" = some "http://a" ∧
    (some "http://b" : Option String) ≠ some "http://a" :=
  ⟨rfl, rfl, by decide⟩

/-- C2 (amended): for every input notation, the execution URL is the quoted
substring of the *last* line matching `endpoint is`/`url is`
(case-insensitively) that carries one — later matching lines override
earlier ones. -/
theorem c2_amended_last_endpoint_wins (g : String) :
    (directivesOf g).apiUrl = ((gherkinLines g).filterMap lineUrl).getLast? := by
  unfold directivesOf
  rw [foldl_apiUrl]
  simp [initDirectives]

/-! ## C9: silent defaults for method and status -/

/-- No verbatim method keyword occurs in the stripped line. -/
def methodKeywordFree (rawLine : String) : Bool :=
  !pyContains (pyStrip rawLine) "GET request" &&
    !pyContains (pyStrip rawLine) "POST request" &&
    !pyContains (pyStrip rawLine) "PUT request" &&
    !pyContains (pyStrip rawLine) "DELETE request"

/-- The stripped line does not match `status code should be`
case-insensitively. -/
def statusDirectiveFree (rawLine : String) : Bool :=
  !pyContains (pyLower (pyStrip rawLine)) "status code should be"

theorem processDirLine_method (d : Directives) (raw : String)
    (h : methodKeywordFree raw = true) :
    (processDirLine d raw).method = d.method := by
  unfold methodKeywordFree at h
  simp only [Bool.and_eq_true, Bool.not_eq_true'] at h
  obtain ⟨⟨⟨h1, h2⟩, h3⟩, h4⟩ := h
  unfold processDirLine
  simp only [h1, h2, h3, h4, Bool.false_eq_true, if_false]
  repeat' split
  all_goals simp

theorem processDirLine_status (d : Directives) (raw : String)
    (h : statusDirectiveFree raw = true) :
    (processDirLine d raw).expectedStatus = d.expectedStatus := by
  unfold statusDirectiveFree at h
  simp only [Bool.not_eq_true'] at h
  unfold processDirLine
  simp only [h, Bool.false_eq_true, if_false]
  repeat' split
  all_goals simp

theorem foldl_method (lines : List String)
    (h : ∀ l ∈ lines, methodKeywordFree l = true) : ∀ d : Directives,
    (lines.foldl processDirLine d).method = d.method := by
  induction lines with
  | nil => intro d; rfl
  | cons l rest ih =>
    intro d
    rw [List.foldl_cons, ih (fun x hx => h x (List.mem_cons_of_mem l hx)),
      processDirLine_method d l (h l (List.mem_cons_self l rest))]

theorem foldl_status (lines : List String)
    (h : ∀ l ∈ lines, statusDirectiveFree l = true) : ∀ d : Directives,
    (lines.foldl processDirLine d).expectedStatus = d.expectedStatus := by
  induction lines with
  | nil => intro d; rfl
  | cons l rest ih =>
    intro d
    rw [List.foldl_cons, ih (fun x hx => h x (List.mem_cons_of_mem l hx)),
      processDirLine_status d l (h l (List.mem_cons_self l rest))]

/-- C9: when the notation yields a URL but no line carries a verbatim method
keyword (`GET request` / `POST request` / `PUT request` / `DELETE request`)
and no line matches `status code should be`, execution proceeds (the HTTP
call happens and an `.executed` result is produced) with the silent defaults
method `"GET"` and expected status `200`. -/
theorem c9_silent_defaults (g now : String) (el : Rat) (u : String)
    (hu : (directivesOf g).apiUrl = some u)
    (hm : ∀ l ∈ gherkinLines g, methodKeywordFree l = true)
    (hs : ∀ l ∈ gherkinLines g, statusDirectiveFree l = true) :
    (directivesOf g).method = "GET" ∧ (directivesOf g).expectedStatus = 200 ∧
    ∀ resp : MockResponse, ∃ rec fr,
      executeGherkinScenario g (fun _ _ => Except.ok resp) now el = .executed rec fr := by
  refine ⟨foldl_method (gherkinLines g) hm initDirectives,
          foldl_status (gherkinLines g) hs initDirectives,
          fun resp => ⟨_, _, exec_ok g now el u resp hu⟩⟩

/-- Witness for C9 at the one-line scenario `Given the url is "http://x"`:
no method keyword, no status line, URL present; the defaults are used and
execution yields an `.executed` result. -/
theorem c9_silent_defaults_witness :
    (directivesOf "Given the url is \"http://x\"").apiUrl = some "http://x" ∧
    (directivesOf "Given the url is \"http://x\"").method = "GET" ∧
    (directivesOf "Given the url is \"http://x\"").expectedStatus = 200 ∧
    ∃ rec fr, executeGherkinScenario "Given the url is \"http://x\""
        (fun _ _ => Except.ok { statusCode := 200, elapsedSeconds := 0,
                                jsonBody := some (.arr []), text := "" }) "t" 0 =
      .executed rec fr := by
  have k := c9_silent_defaults "Given the url is \"http://x\"" "t" 0 "http://x"
    rfl (by decide) (by decide)
  exact ⟨rfl, k.1, k.2.1, k.2.2 _⟩

/-! ## C1: end-to-end scenario -/

/-- The five-line input notation of the end-to-end property. -/
def c1Text : String :=
  "Given the API endpoint is \"https://example.test/users\"\nWhen I send a GET request\nThen the response status code should be 200\nThen the response should be a JSON array\nThen the response should contain \"Leanne Graham\""

/-- The mocked body `[{"name": "Leanne Graham"}]`. -/
def c1Body : Json := .arr [.obj [("name", .str "Leanne Graham")]]

/-- The mocked endpoint: status 200 with body `c1Body`. -/
def c1Http : String → String → Except String MockResponse :=
  fun _ _ => .ok { statusCode := 200, elapsedSeconds := 0, jsonBody := some c1Body, text := "" }

/-- C1: executing the five-line notation (endpoint / GET / status 200 / JSON
array / contains "Leanne Graham") against a mocked response with status 200
and body `[{"name":"Leanne Graham"}]` yields a passed result with an empty
validation-error list and extracted values exactly
`{"contains_Leanne_Graham": true}`. -/
theorem c1_end_to_end_scenario :
    ∃ rec fr, executeGherkinScenario c1Text c1Http "2025-01-01T00:00:00" 0 =
        .executed rec fr ∧
      rec.success = true ∧ fr.status = .passed ∧
      fr.validationErrors = [] ∧ rec.errors = none ∧
      fr.extractedValues = [("contains_Leanne_Graham", true)] ∧
      rec.extractedValues = some [("contains_Leanne_Graham", true)] ∧
      fr.statusCode = 200 ∧ fr.apiEndpoint = "https://example.test/users" :=
  ⟨_, _, rfl, rfl, rfl, rfl, rfl, rfl, rfl, rfl, rfl⟩

/-! ## C5: all validation failures are collected -/

/-- C5: with a URL present, every validation rule runs: the final error list
is exactly the status check followed by the contribution of every line in
order (nothing short-circuits), a status mismatch contributes
`"Expected status X, got Y"`, and the recorded success flag is
`(error list empty) && (actual status == expected status)`. -/
theorem c5_collects_all_failures (g now : String) (el : Rat) (u : String)
    (resp : MockResponse) (hu : (directivesOf g).apiUrl = some u) :
    ∃ rec fr, executeGherkinScenario g (fun _ _ => Except.ok resp) now el =
        .executed rec fr ∧
      fr.validationErrors =
        statusErrs g resp ++ (gherkinLines g).flatMap (lineErrors (responseBody resp)) ∧
      (resp.statusCode ≠ (directivesOf g).expectedStatus →
        ("Expected status " ++ (toString (directivesOf g).expectedStatus ++
            (", got " ++ toString resp.statusCode))) ∈ fr.validationErrors) ∧
      rec.success =
        (fr.validationErrors.isEmpty && (resp.statusCode == (directivesOf g).expectedStatus)) ∧
      fr.status = (if rec.success then TestStatus.passed else .failed) ∧
      rec.errors = (if fr.validationErrors.isEmpty then none else some fr.validationErrors) := by
  rw [exec_ok g now el u resp hu]
  refine ⟨_, _, rfl, rfl, ?_, rfl, rfl, rfl⟩
  intro hne
  have : statusErrs g resp =
      ["Expected status " ++ (toString (directivesOf g).expectedStatus ++
          (", got " ++ toString resp.statusCode))] := by
    unfold statusErrs
    simp [Nat.beq_eq_true_eq, hne]
  rw [this]
  exact List.mem_append_left _ (List.mem_singleton.2 rfl)

/-- Witness for C5: the C1 scenario against a 404 response; the status
mismatch message `Expected status 200, got 404` is collected. -/
theorem c5_collects_all_failures_witness :
    (directivesOf c1Text).apiUrl = some "https://example.test/users" ∧
    (200 : Nat) ≠ 404 ∧
    ∃ rec fr, executeGherkinScenario c1Text
        (fun _ _ => Except.ok { statusCode := 404, elapsedSeconds := 0,
                                jsonBody := some c1Body, text := "" }) "t" 0 =
        .executed rec fr ∧
      fr.validationErrors =
        statusErrs c1Text { statusCode := 404, elapsedSeconds := 0,
                            jsonBody := some c1Body, text := "" } ++
          (gherkinLines c1Text).flatMap
            (lineErrors (responseBody { statusCode := 404, elapsedSeconds := 0,
                                        jsonBody := some c1Body, text := "" })) ∧
      ("Expected status " ++ (toString (directivesOf c1Text).expectedStatus ++
          (", got " ++ toString (404 : Nat)))) ∈ fr.validationErrors := by
  have k := c5_collects_all_failures c1Text "t" 0 "https://example.test/users"
    { statusCode := 404, elapsedSeconds := 0, jsonBody := some c1Body, text := "" } rfl
  obtain ⟨rec, fr, h1, h2, h3, _⟩ := k
  exact ⟨rfl, by decide, rec, fr, h1, h2, h3 (by decide)⟩

/-! ## C7: the structural array assertion -/

theorem statusMsg_ne_arrayMsg (x : String) :
    ("Expected status " ++ x) ≠ "Response is not a JSON array" := by
  intro h
  have h2 : some 'E' = some 'R' := congrArg (fun s : String => s.data.head?) h
  simp at h2

theorem containMsg_ne_arrayMsg (x : String) :
    ("Response does not contain '" ++ x) ≠ "Response is not a JSON array" := by
  intro h
  have h2 : some 'd' = some 'i' := congrArg (fun s : String => (s.data.drop 9).head?) h
  simp at h2

theorem arrayMsg_mem_lineErrors (rd : Json) (l : String) :
    ("Response is not a JSON array" ∈ lineErrors rd l) ↔
      (isArrayAssertLine l = true ∧ rd.isArr = false) := by
  unfold lineErrors
  constructor
  · intro h
    rcases List.mem_append.1 h with h | h
    · constructor
      · by_contra hA
        simp only [Bool.not_eq_true] at hA
        simp [hA] at h
      · by_contra hArr
        simp only [Bool.not_eq_false] at hArr
        simp [hArr] at h
    · exfalso
      rcases hC : pyContains (pyLower l) "should contain" with _ | _ <;> simp [hC] at h
      rcases hL : containLiteralL l.data with _ | lit <;> simp [hL] at h
      rcases hP : pyContains rd.dumps ⟨lit⟩ with _ | _ <;> simp [hP] at h
      exact containMsg_ne_arrayMsg _ h.symm
  · rintro ⟨h1, h2⟩
    exact List.mem_append_left _ (by simp [h1, h2])

theorem arrayMsg_not_mem_statusErrs (g : String) (resp : MockResponse) :
    "Response is not a JSON array" ∉ statusErrs g resp := by
  unfold statusErrs
  split
  · simp
  · intro h
    exact statusMsg_ne_arrayMsg _ (List.mem_singleton.1 h).symm

/-- C7: when the scenario declares a structural array assertion and the
response body parses as JSON, the `"Response is not a JSON array"` error is
recorded iff the parsed top-level value is not a sequence — so no error for
an array and the error for every mapping or scalar. -/
theorem c7_array_check_iff (g now : String) (el : Rat) (u : String)
    (resp : MockResponse) (j : Json) (hu : (directivesOf g).apiUrl = some u)
    (hj : resp.jsonBody = some j)
    (hl : ∃ l ∈ gherkinLines g, isArrayAssertLine l = true) :
    ∃ rec fr, executeGherkinScenario g (fun _ _ => Except.ok resp) now el =
        .executed rec fr ∧
      (("Response is not a JSON array" ∈ fr.validationErrors) ↔ j.isArr = false) := by
  rw [exec_ok g now el u resp hu]
  refine ⟨_, _, rfl, ?_⟩
  have hrb : responseBody resp = j := by simp [responseBody, hj]
  rw [hrb]
  constructor
  · intro h
    rcases List.mem_append.1 h with h | h
    · exact absurd h (arrayMsg_not_mem_statusErrs g resp)
    · obtain ⟨l, _, hm⟩ := List.mem_flatMap.1 h
      exact ((arrayMsg_mem_lineErrors j l).1 hm).2
  · intro hF
    obtain ⟨l, hl1, hl2⟩ := hl
    exact List.mem_append_right _
      (List.mem_flatMap.2 ⟨l, hl1, (arrayMsg_mem_lineErrors j l).2 ⟨hl2, hF⟩⟩)

/-- Witness for C7: the C1 scenario (which declares the array assertion)
against a 200 response whose body is the object `{"ok": true}`; the array
error is recorded since the body is not a sequence. -/
theorem c7_array_check_iff_witness :
    (directivesOf c1Text).apiUrl = some "https://example.test/users" ∧
    (∃ l ∈ gherkinLines c1Text, isArrayAssertLine l = true) ∧
    ∃ rec fr, executeGherkinScenario c1Text
        (fun _ _ => Except.ok { statusCode := 200, elapsedSeconds := 0,
                                jsonBody := some (.obj [("ok", .bool true)]), text := "" }) "t" 0 =
        .executed rec fr ∧
      (("Response is not a JSON array" ∈ fr.validationErrors) ↔
        (Json.obj [("ok", .bool true)]).isArr = false) := by
  refine ⟨rfl, ?_, ?_⟩
  · exact ⟨"Then the response should be a JSON array", by decide, rfl⟩
  · exact c7_array_check_iff c1Text "t" 0 "https://example.test/users"
      { statusCode := 200, elapsedSeconds := 0,
        jsonBody := some (.obj [("ok", .bool true)]), text := "" }
      (.obj [("ok", .bool true)]) rfl rfl
      ⟨"Then the response should be a JSON array", by decide, rfl⟩

/-! ## C6: value extraction -/

/-- The body `{"users":[{"id":1,"name":"Leanne Graham"}]}` of the extraction
property. -/
def c6Body : Json :=
  .obj [("users", .arr [.obj [("id", .num 1), ("name", .str "Leanne Graham")]])]

/-- C6: each extraction path is resolved independently: `users[0].name`
yields `"Leanne Graham"`; `users[5].name`, a missing key and a wrong-type
access each yield an `"Error extracting: ..."` string stored as the key's
value; a failing key does not abort the rest of the batch, and in general
every requested key appears in the output, in order. -/
theorem c6_extraction_isolated_per_key :
    extractValues c6Body [("user_name", "users[0].name")] =
        [("user_name", Json.str "Leanne Graham")] ∧
    extractValues c6Body [("bad_index", "users[5].name")] =
        [("bad_index", Json.str "Error extracting: list index out of range")] ∧
    extractValues c6Body [("bad_key", "unknown.x")] =
        [("bad_key", Json.str "Error extracting: 'unknown'")] ∧
    extractValues c6Body [("bad_type", "users[0].name.x")] =
        [("bad_type", Json.str "Error extracting: string indices must be integers")] ∧
    extractValues c6Body [("b", "users[5].name"), ("a", "users[0].name")] =
        [("b", Json.str "Error extracting: list index out of range"),
         ("a", Json.str "Leanne Graham")] ∧
    (∀ (rd : Json) (extractors : List (String × String)),
      (extractValues rd extractors).map Prod.fst = extractors.map Prod.fst) := by
  refine ⟨rfl, rfl, rfl, rfl, rfl, ?_⟩
  intro rd extractors
  induction extractors with
  | nil => rfl
  | cons kp rest ih =>
    simp only [extractValues, List.map_cons] at *
    rcases h : getNestedValue rd kp.2 with _ | v <;> simp [h, ih]

/-! ## C10: extraction keys of content assertions -/

theorem mem_lineExtracts (rd : Json) (l : String) (kb : String × Bool) :
    kb ∈ lineExtracts rd l ↔
      ∃ lit : List Char, containLiteralL l.data = some lit ∧
        pyContains (pyLower l) "should contain" = true ∧
        pyContains rd.dumps ⟨lit⟩ = true ∧
        kb = ("contains_" ++ pyReplace ⟨lit⟩ " " "_", true) := by
  unfold lineExtracts
  rcases hC : pyContains (pyLower l) "should contain" with _ | _ <;>
    rcases hL : containLiteralL l.data with _ | lit <;>
      simp [hC, hL]

/-- The extracted-values mapping of an execution outcome (empty for the
early-return failures, which carry no extracted values). -/
def extractedOf : ExecOutcome → List (String × Bool)
  | .failedResult _ => []
  | .executed _ fr => fr.extractedValues

/-- The two-content-assertion scenario whose literals `"a b"` and `"a_b"`
collide on the key `contains_a_b`. -/
def c10Text : String :=
  "Scenario: S\nGiven the url is \"http://x\"\nThen the response should contain \"a b\"\nThen the response should contain \"a_b\""

/-- The mocked response for the collision scenario: status 200, body the
JSON string `"a_b"`. -/
def c10Resp : MockResponse :=
  { statusCode := 200, elapsedSeconds := 0, jsonBody := some (.str "a_b"), text := "" }

/-- The mocked endpoint for the collision scenario. -/
def c10Http : String → String → Except String MockResponse :=
  fun _ _ => .ok c10Resp

/-- Counterexample to C10 as stated: the scenario asserts
`should contain "a b"` (the extracted literal is `a b`) and
`should contain "a_b"` against the serialized body `"a_b"`.  The literal
`a b` does not occur in the serialized body, yet its corresponding key
`contains_a_b` *is* present in the extracted values (bound by the colliding
assertion on `a_b`, whose space-to-underscore key is the same). -/
theorem c10_counterexample :
    pyContains (Json.dumps (Json.str "a_b")) "a b" = false ∧
    containLiteralL "Then the response should contain \"a b\"".data =
      some ('a' :: ' ' :: 'b' :: []) ∧
    ("contains_" ++ pyReplace "a b" " " "_") = "contains_a_b" ∧
    extractedOf (executeGherkinScenario c10Text c10Http "t" 0) =
      [("contains_a_b", true)] :=
  ⟨rfl, rfl, rfl, rfl⟩

/-- C10 (amended): extraction keys are only ever bound to `true`, and a key
is present in the extracted values iff *some* line's content assertion has a
literal that occurs in the serialized body and maps to that key after
space-to-underscore replacement.  In particular a key whose failing literal
collides with no present literal is absent — but a colliding present literal
may still bind it. -/
theorem c10_amended_keys_only_true (g now : String) (el : Rat) (u : String)
    (resp : MockResponse) (hu : (directivesOf g).apiUrl = some u) :
    ∃ rec fr, executeGherkinScenario g (fun _ _ => Except.ok resp) now el =
        .executed rec fr ∧
      (∀ kb ∈ fr.extractedValues, kb.2 = true) ∧
      (∀ k : String, (∃ b, (k, b) ∈ fr.extractedValues) ↔
        ∃ l ∈ gherkinLines g, ∃ lit : List Char,
          containLiteralL l.data = some lit ∧
          pyContains (pyLower l) "should contain" = true ∧
          pyContains (responseBody resp).dumps ⟨lit⟩ = true ∧
          k = "contains_" ++ pyReplace ⟨lit⟩ " " "_") := by
  rw [exec_ok g now el u resp hu]
  refine ⟨_, _, rfl, ?_, ?_⟩
  · intro kb hkb
    obtain ⟨l, _, hm⟩ := List.mem_flatMap.1 hkb
    obtain ⟨lit, _, _, _, hkb⟩ := (mem_lineExtracts _ l kb).1 hm
    rw [hkb]
  · intro k
    constructor
    · rintro ⟨b, hb⟩
      obtain ⟨l, hl, hm⟩ := List.mem_flatMap.1 hb
      obtain ⟨lit, h1, h2, h3, h4⟩ := (mem_lineExtracts _ l (k, b)).1 hm
      exact ⟨l, hl, lit, h1, h2, h3, congrArg Prod.fst h4⟩
    · rintro ⟨l, hl, lit, h1, h2, h3, h4⟩
      refine ⟨true, List.mem_flatMap.2 ⟨l, hl, (mem_lineExtracts _ l (k, true)).2
        ⟨lit, h1, h2, h3, ?_⟩⟩⟩
      rw [h4]

/-- Witness for C10 (amended) at the collision scenario: the key
`contains_a_b` is present and bound to `true`, justified by the
present literal `a_b`. -/
theorem c10_amended_keys_only_true_witness :
    (directivesOf c10Text).apiUrl = some "http://x" ∧
    ∃ rec fr, executeGherkinScenario c10Text c10Http "t" 0 = .executed rec fr ∧
      (∀ kb ∈ fr.extractedValues, kb.2 = true) ∧
      (∀ k : String, (∃ b, (k, b) ∈ fr.extractedValues) ↔
        ∃ l ∈ gherkinLines c10Text, ∃ lit : List Char,
          containLiteralL l.data = some lit ∧
          pyContains (pyLower l) "should contain" = true ∧
          pyContains (responseBody c10Resp).dumps ⟨lit⟩ = true ∧
          k = "contains_" ++ pyReplace ⟨lit⟩ " " "_") :=
  ⟨rfl, c10_amended_keys_only_true c10Text "t" 0 "http://x" c10Resp rfl⟩

/-! ## C3: the codec round trip

The decoder removes a step's keyword with `line.replace(kw, '')`, which
deletes *every* occurrence of the keyword in the line, not just the leading
one — so steps containing their own keyword do not survive the round trip. -/

/-- A scenario whose given step contains the word `Given`. -/
def c3Scenario : GherkinScenario :=
  { feature := "F", scenario := "S", givenSteps := ["a Given b"],
    whenSteps := ["w"], thenSteps := ["t"] }

/-- Counterexample to C3 as stated: encoding `c3Scenario` (non-empty
given/when/then) and decoding the result turns the given step `"a Given b"`
into `"a  b"` — `replace('Given', '')` removed the interior keyword too. -/
theorem c3_counterexample :
    c3Scenario.givenSteps = ["a Given b"] ∧
    (parseGherkinText (generateGherkinText c3Scenario)).givenSteps = ["a  b"] ∧
    (["a  b"] : List String) ≠ ["a Given b"] :=
  ⟨rfl, rfl, by decide⟩

/-! ### General lemmas for the round-trip proof -/

theorem splitCharL_ne_nil (sep : Char) (xs : List Char) : splitCharL sep xs ≠ [] := by
  cases xs with
  | nil => simp [splitCharL]
  | cons c rest =>
    unfold splitCharL
    split
    · simp
    · split <;> simp

theorem splitNlL_cons_ne (c : Char) (rest : List Char) (hc : c ≠ '\n') :
    ∃ h t, splitNlL rest = h :: t ∧ splitNlL (c :: rest) = (c :: h) :: t := by
  cases hs : splitNlL rest with
  | nil => exact absurd hs (splitCharL_ne_nil '\n' rest)
  | cons h t =>
    refine ⟨h, t, rfl, ?_⟩
    show splitCharL '\n' (c :: rest) = (c :: h) :: t
    unfold splitCharL
    rw [if_neg hc, show splitCharL '\n' rest = h :: t from hs]

theorem splitNlL_append_newline (xs ys : List Char) (h : '\n' ∉ xs) :
    splitNlL (xs ++ '\n' :: ys) = xs :: splitNlL ys := by
  induction xs with
  | nil =>
    show splitCharL '\n' ('\n' :: ys) = [] :: splitNlL ys
    unfold splitCharL
    rw [if_pos rfl]
    rfl
  | cons c rest ih =>
    have hc : c ≠ '\n' := fun e => h (e ▸ List.mem_cons_self c rest)
    have hrest : '\n' ∉ rest := fun hm => h (List.mem_cons_of_mem c hm)
    obtain ⟨l, ls, h1, h2⟩ := splitNlL_cons_ne c (rest ++ '\n' :: ys) hc
    rw [ih hrest] at h1
    injection h1 with e1 e2
    rw [List.cons_append, h2, ← e1, ← e2]

theorem splitNlL_append_nl_end (ys : List Char) :
    splitNlL (ys ++ ['\n']) = splitNlL ys ++ [[]] := by
  induction ys with
  | nil => rfl
  | cons c rest ih =>
    by_cases hc : c = '\n'
    · subst hc
      show splitCharL '\n' ('\n' :: (rest ++ ['\n'])) = _
      unfold splitCharL
      rw [if_pos rfl, show splitCharL '\n' (rest ++ ['\n']) = splitNlL (rest ++ ['\n']) from rfl,
        ih]
      rfl
    · obtain ⟨l, ls, h1, h2⟩ := splitNlL_cons_ne c (rest ++ ['\n']) hc
      obtain ⟨l', ls', g1, g2⟩ := splitNlL_cons_ne c rest hc
      rw [ih, g1, List.cons_append] at h1
      injection h1 with e1 e2
      rw [List.cons_append, h2, g2, ← e1, ← e2]
      rfl

theorem splitNlL_append_char (c : Char) (hc : c ≠ '\n') (ys : List Char) :
    ∃ A lst, splitNlL ys = A ++ [lst] ∧ splitNlL (ys ++ [c]) = A ++ [lst ++ [c]] := by
  induction ys with
  | nil => exact ⟨[], [], rfl, by simp [splitNlL, splitCharL, hc]⟩
  | cons d rest ih =>
    obtain ⟨A, lst, h1, h2⟩ := ih
    by_cases hd : d = '\n'
    · subst hd
      refine ⟨[] :: A, lst, ?_, ?_⟩
      · show splitCharL '\n' ('\n' :: rest) = _
        unfold splitCharL
        rw [if_pos rfl, show splitCharL '\n' rest = splitNlL rest from rfl, h1]
        rfl
      · show splitCharL '\n' ('\n' :: (rest ++ [c])) = _
        unfold splitCharL
        rw [if_pos rfl, show splitCharL '\n' (rest ++ [c]) = splitNlL (rest ++ [c]) from rfl, h2]
        rfl
    · obtain ⟨l, ls, g1, g2⟩ := splitNlL_cons_ne d rest hd
      obtain ⟨l', ls', g1', g2'⟩ := splitNlL_cons_ne d (rest ++ [c]) hd
      rw [g1] at h1
      rw [g1'] at h2
      cases A with
      | nil =>
        simp only [List.nil_append, List.singleton_append, List.cons.injEq] at h1 h2
        refine ⟨[], d :: lst, ?_, ?_⟩
        · rw [g2, h1.1, h1.2]
          rfl
        · rw [List.cons_append, g2', h2.1, h2.2]
          rfl
      | cons a as =>
        simp only [List.cons_append, List.cons.injEq] at h1 h2
        refine ⟨(d :: a) :: as, lst, ?_, ?_⟩
        · rw [g2, h1.1, h1.2]
          rfl
        · rw [List.cons_append, g2', h2.1, h2.2]
          rfl

/-! ### Lemmas about stripping -/

theorem dropTrailWs_cons_space (c : Char) (hc : isPySpace c = true) (xs : List Char) :
    dropTrailWs (xs ++ [c]) = dropTrailWs xs := by
  unfold dropTrailWs
  rw [List.reverse_append]
  simp [List.dropWhile_cons_of_pos hc]

theorem dropTrailWs_append_allspace (k x : List Char)
    (h : ∀ c ∈ x, isPySpace c = true) :
    dropTrailWs (k ++ x) = dropTrailWs k := by
  unfold dropTrailWs
  rw [List.reverse_append, List.dropWhile_append]
  have hx : x.reverse.dropWhile isPySpace = [] :=
    List.dropWhile_eq_nil_iff.2 (fun c hc => h c (List.mem_reverse.1 hc))
  simp [hx]

theorem dropTrailWs_append_span (k x : List Char)
    (h : ∃ c ∈ x, isPySpace c = false) :
    dropTrailWs (k ++ x) = k ++ dropTrailWs x := by
  unfold dropTrailWs
  rw [List.reverse_append, List.dropWhile_append]
  have hx : (x.reverse.dropWhile isPySpace).isEmpty = false := by
    obtain ⟨c, hc, hcs⟩ := h
    rw [List.isEmpty_eq_false_iff_exists_mem]
    by_contra he
    push_neg at he
    have := List.dropWhile_eq_nil_iff.1 (List.eq_nil_iff_forall_not_mem.2 he)
    rw [this c (List.mem_reverse.2 hc)] at hcs
    cases hcs
  rw [hx]
  simp

theorem dropWhile_eq_self_of_length (p : Char → Bool) (l : List Char)
    (h : (l.dropWhile p).length = l.length) : l.dropWhile p = l := by
  induction l with
  | nil => rfl
  | cons c rest ih =>
    by_cases hc : p c
    · rw [List.dropWhile_cons_of_pos hc] at h ⊢
      have := (List.dropWhile_sublist (l := rest) p).length_le
      simp at h
      omega
    · exact List.dropWhile_cons_of_neg hc

theorem stripL_eq_self_parts (xs : List Char) (h : stripL xs = xs) :
    xs.dropWhile isPySpace = xs ∧ dropTrailWs xs = xs := by
  unfold stripL at h
  have l1 : (xs.dropWhile isPySpace).length ≤ xs.length :=
    (List.dropWhile_sublist isPySpace).length_le
  have l2 : (dropTrailWs (xs.dropWhile isPySpace)).length ≤
      (xs.dropWhile isPySpace).length := by
    unfold dropTrailWs
    rw [List.length_reverse]
    calc ((xs.dropWhile isPySpace).reverse.dropWhile isPySpace).length
        ≤ (xs.dropWhile isPySpace).reverse.length :=
          (List.dropWhile_sublist isPySpace).length_le
      _ = (xs.dropWhile isPySpace).length := List.length_reverse _
  have hlen : xs.length = (dropTrailWs (xs.dropWhile isPySpace)).length := by rw [h]
  have e1 : (xs.dropWhile isPySpace).length = xs.length := le_antisymm l1 (by omega)
  have d1 : xs.dropWhile isPySpace = xs := dropWhile_eq_self_of_length _ _ e1
  rw [d1] at h
  exact ⟨d1, h⟩

theorem exists_nonspace_of_stripped (s : String) (h : pyStrip s = s) (hne : s ≠ "") :
    ∃ c ∈ s.data, isPySpace c = false := by
  by_contra hall
  push_neg at hall
  have hall' : ∀ c ∈ s.data, isPySpace c = true := by
    intro c hc
    have := hall c hc
    revert this
    cases isPySpace c <;> simp
  have hd : stripL s.data = s.data := congrArg String.data h
  have h1 := (stripL_eq_self_parts s.data hd).1
  rw [List.dropWhile_eq_nil_iff.2 hall'] at h1
  apply hne
  cases s with
  | mk d => cases h1; rfl

theorem stripL_append_space (l : List Char) (c : Char) (hc : isPySpace c = true) :
    stripL (l ++ [c]) = stripL l := by
  unfold stripL
  rw [List.dropWhile_append]
  by_cases he : (l.dropWhile isPySpace).isEmpty
  · rw [if_pos he]
    rw [List.isEmpty_iff] at he
    rw [he]
    simp [List.dropWhile_cons_of_pos hc, dropTrailWs]
  · rw [if_neg he]
    exact dropTrailWs_cons_space c hc _

theorem stripL_cons_space (c : Char) (hc : isPySpace c = true) (l : List Char) :
    stripL (c :: l) = stripL l := by
  unfold stripL
  rw [List.dropWhile_cons_of_pos hc]

/-! ### Lemmas about replacement -/

theorem isPrefixOf_self_append (l r : List Char) : l.isPrefixOf (l ++ r) = true := by
  rw [List.isPrefixOf_iff_prefix]
  exact List.prefix_append l r

theorem replaceAux_skip (pat rep : List Char) (xs ys : List Char) :
    replaceAux pat rep xs.length (xs ++ ys) = replaceAux pat rep 0 ys := by
  induction xs with
  | nil => rfl
  | cons c rest ih =>
    show replaceAux pat rep (rest.length + 1) (c :: (rest ++ ys)) = _
    rw [show replaceAux pat rep (rest.length + 1) (c :: (rest ++ ys)) =
          replaceAux pat rep rest.length (rest ++ ys) from rfl, ih]

theorem replaceL_head_match (pat rep rest : List Char) (hp : pat ≠ []) :
    replaceL pat rep (pat ++ rest) = rep ++ replaceL pat rep rest := by
  obtain ⟨p, ps, rfl⟩ := List.exists_cons_of_ne_nil hp
  show replaceAux (p :: ps) rep 0 (p :: (ps ++ rest)) = _
  unfold replaceAux
  rw [if_pos]
  · rw [show (p :: ps).length - 1 = ps.length from rfl, replaceAux_skip]
    rfl
  · rw [show (p :: (ps ++ rest)) = (p :: ps) ++ rest from rfl,
      isPrefixOf_self_append]
    rfl

theorem replaceL_not_contains (pat rep xs : List Char)
    (h : containsL pat xs = false) : replaceL pat rep xs = xs := by
  induction xs with
  | nil => rfl
  | cons c rest ih =>
    rw [containsL_cons, Bool.or_eq_false_iff] at h
    show replaceAux pat rep 0 (c :: rest) = c :: rest
    unfold replaceAux
    rw [if_neg]
    · rw [show replaceAux pat rep 0 rest = replaceL pat rep rest from rfl, ih h.2]
    · rw [h.1]
      simp

/-! ### Folding the parser over a character stream -/

/-- The decoder's fold, expressed over the raw character stream: split at
newlines and fold the line classifier.  `parseGherkinText text` is this at
`initParseState` on `stripL text.data`. -/
def parseAllL (st : ParseState) (xs : List Char) : ParseState :=
  ((splitNlL xs).map (fun l => (⟨l⟩ : String))).foldl parseGherkinLine st

theorem parseGherkinText_eq_parseAllL (text : String) :
    parseGherkinText text =
      { feature := (parseAllL initParseState (stripL text.data)).feature,
        scenario := (parseAllL initParseState (stripL text.data)).scenario,
        givenSteps := (parseAllL initParseState (stripL text.data)).givenSteps,
        whenSteps := (parseAllL initParseState (stripL text.data)).whenSteps,
        thenSteps := (parseAllL initParseState (stripL text.data)).thenSteps,
        background := none } := rfl

theorem parseGherkinLine_congr (st : ParseState) (a b : List Char)
    (h : stripL a = stripL b) :
    parseGherkinLine st ⟨a⟩ = parseGherkinLine st ⟨b⟩ := by
  unfold parseGherkinLine
  rw [show pyStrip (⟨a⟩ : String) = pyStrip ⟨b⟩ from congrArg String.mk h]

theorem parseGherkinLine_empty (st : ParseState) : parseGherkinLine st "" = st := rfl

theorem parseAllL_line (l rest : List Char) (st : ParseState) (h : '\n' ∉ l) :
    parseAllL st (l ++ '\n' :: rest) = parseAllL (parseGherkinLine st ⟨l⟩) rest := by
  unfold parseAllL
  rw [splitNlL_append_newline l rest h]
  rfl

theorem parseAllL_nil (st : ParseState) : parseAllL st [] = st := rfl

theorem parseAllL_cons_space (c : Char) (hc : isPySpace c = true) (xs : List Char)
    (st : ParseState) : parseAllL st (c :: xs) = parseAllL st xs := by
  by_cases hnl : c = '\n'
  · subst hnl
    show ((splitCharL '\n' ('\n' :: xs)).map _).foldl parseGherkinLine st = _
    unfold splitCharL
    rw [if_pos rfl]
    show (("" :: (splitNlL xs).map _).foldl parseGherkinLine st) = _
    rw [List.foldl_cons, parseGherkinLine_empty]
    rfl
  · obtain ⟨l, ls, h1, h2⟩ := splitNlL_cons_ne c xs hnl
    unfold parseAllL
    rw [h1, h2, List.map_cons, List.map_cons, List.foldl_cons, List.foldl_cons,
      parseGherkinLine_congr st (c :: l) l (stripL_cons_space c hc l)]

theorem parseAllL_dropWhile (xs : List Char) (st : ParseState) :
    parseAllL st (xs.dropWhile isPySpace) = parseAllL st xs := by
  induction xs with
  | nil => rfl
  | cons c rest ih =>
    by_cases hc : isPySpace c
    · rw [List.dropWhile_cons_of_pos hc, ih, parseAllL_cons_space c hc rest st]
    · rw [List.dropWhile_cons_of_neg hc]

theorem parseAllL_append_space (xs : List Char) (c : Char) (hc : isPySpace c = true)
    (st : ParseState) : parseAllL st (xs ++ [c]) = parseAllL st xs := by
  by_cases hnl : c = '\n'
  · subst hnl
    unfold parseAllL
    rw [splitNlL_append_nl_end, List.map_append, List.foldl_append]
    rfl
  · obtain ⟨A, lst, h1, h2⟩ := splitNlL_append_char c hnl xs
    unfold parseAllL
    rw [h1, h2, List.map_append, List.map_append, List.foldl_append, List.foldl_append]
    simp only [List.map_cons, List.map_nil, List.foldl_cons, List.foldl_nil]
    exact parseGherkinLine_congr _ (lst ++ [c]) lst (stripL_append_space lst c hc)

theorem parseAllL_dropTrailWs (xs : List Char) (st : ParseState) :
    parseAllL st (dropTrailWs xs) = parseAllL st xs := by
  induction xs using List.reverseRecOn with
  | nil => rfl
  | append_singleton ys c ih =>
    by_cases hc : isPySpace c
    · rw [dropTrailWs_cons_space c hc ys, ih, parseAllL_append_space ys c hc st]
    · have : dropTrailWs (ys ++ [c]) = ys ++ [c] := by
        unfold dropTrailWs
        rw [List.reverse_append]
        simp [List.dropWhile_cons_of_neg hc]
      rw [this]

theorem parseAllL_stripL (xs : List Char) (st : ParseState) :
    parseAllL st (stripL xs) = parseAllL st xs := by
  unfold stripL
  rw [parseAllL_dropTrailWs, parseAllL_dropWhile]

/-! ### The parser on the encoder's line shapes -/

theorem containsL_cons_false (kw : List Char) (c : Char) (x : List Char)
    (hpre : kw.isPrefixOf (c :: x) = false) (hx : containsL kw x = false) :
    containsL kw (c :: x) = false := by
  rw [containsL_cons, hpre, hx]
  rfl

theorem replace_kw_space (kw : List Char) (x : List Char) (hk : kw ≠ [])
    (hpre : kw.isPrefixOf (' ' :: x) = false) (hx : containsL kw x = false) :
    replaceL kw [] (kw ++ (' ' :: x)) = ' ' :: x := by
  rw [replaceL_head_match kw [] _ hk,
    replaceL_not_contains _ _ _ (containsL_cons_false kw ' ' x hpre hx)]
  rfl

theorem stripL_space_stripped (x : List Char) (hx1 : x.dropWhile isPySpace = x)
    (hx2 : dropTrailWs x = x) : stripL (' ' :: x) = x := by
  rw [stripL_cons_space ' ' rfl x]
  unfold stripL
  rw [hx1, hx2]

/-- Strip of a line `kw ++ " " ++ x` whose content `x` is stripped and
non-all-space: the leading keyword must start with a non-space character. -/
theorem stripL_kw_line (kw : List Char) (x : List Char)
    (hk1 : (kw ++ [' ']).dropWhile isPySpace = kw ++ [' '])
    (hx : ∃ c ∈ x, isPySpace c = false) (hx2 : dropTrailWs x = x) :
    stripL ((kw ++ [' ']) ++ x) = (kw ++ [' ']) ++ x := by
  unfold stripL
  rw [List.dropWhile_append, hk1]
  rw [if_neg (by cases kw <;> simp)]
  rw [dropTrailWs_append_span _ _ hx, hx2]

theorem parseLine_scenario (st : ParseState) (s : String) (h1 : pyStrip s = s)
    (h3 : containsL "Scenario:".data s.data = false) :
    parseGherkinLine st ⟨"Scenario: ".data ++ s.data⟩ = { st with scenario := s } := by
  obtain ⟨sd⟩ := s
  cases sd with
  | nil => rfl
  | cons c cs =>
    have hne : (⟨c :: cs⟩ : String) ≠ "" := by
      intro e
      have e' : c :: cs = ([] : List Char) := congrArg String.data e
      simp at e'
    have hsp := exists_nonspace_of_stripped ⟨c :: cs⟩ h1 hne
    have hparts := stripL_eq_self_parts (c :: cs) (congrArg String.data h1)
    have hstrip : stripL ("Scenario: ".data ++ (c :: cs)) =
        "Scenario: ".data ++ (c :: cs) := by
      have := stripL_kw_line "Scenario:".data (c :: cs) (by decide) hsp hparts.2
      exact this
    unfold parseGherkinLine
    rw [show pyStrip ⟨"Scenario: ".data ++ (c :: cs)⟩ = ⟨"Scenario: ".data ++ (c :: cs)⟩
      from congrArg String.mk hstrip]
    rw [if_neg (by
      show pyStartsWith ⟨"Scenario: ".data ++ (c :: cs)⟩ "Feature:" = true → False
      intro e
      exact absurd e (by rw [show pyStartsWith ⟨"Scenario: ".data ++ (c :: cs)⟩ "Feature:" =
        false from rfl]; simp))]
    rw [if_pos (show pyStartsWith ⟨"Scenario: ".data ++ (c :: cs)⟩ "Scenario:" = true from rfl)]
    have hval : pyStrip (pyReplace ⟨"Scenario: ".data ++ (c :: cs)⟩ "Scenario:" "") =
        ⟨c :: cs⟩ := by
      show pyStrip ⟨replaceL "Scenario:".data [] ("Scenario: ".data ++ (c :: cs))⟩ = _
      rw [show ("Scenario: ".data ++ (c :: cs)) =
        "Scenario:".data ++ (' ' :: c :: cs) from rfl]
      rw [replace_kw_space "Scenario:".data (c :: cs) (by decide) rfl h3]
      show (⟨stripL (' ' :: c :: cs)⟩ : String) = _
      rw [stripL_space_stripped (c :: cs) hparts.1 hparts.2]
    rw [hval]

theorem parseLine_given (st : ParseState) (g : String) (h1 : pyStrip g = g)
    (h3 : containsL "Given".data g.data = false) :
    parseGherkinLine st ⟨"  Given ".data ++ g.data⟩ =
      { st with givenSteps := st.givenSteps ++ [g], currentSection := some .given } := by
  obtain ⟨gd⟩ := g
  cases gd with
  | nil => rfl
  | cons c cs =>
    have hne : (⟨c :: cs⟩ : String) ≠ "" := by
      intro e
      have e' : c :: cs = ([] : List Char) := congrArg String.data e
      simp at e'
    have hsp := exists_nonspace_of_stripped ⟨c :: cs⟩ h1 hne
    have hparts := stripL_eq_self_parts (c :: cs) (congrArg String.data h1)
    have hstrip : stripL ("  Given ".data ++ (c :: cs)) = "Given ".data ++ (c :: cs) := by
      show stripL (' ' :: ' ' :: ("Given ".data ++ (c :: cs))) = _
      rw [stripL_cons_space ' ' rfl, stripL_cons_space ' ' rfl]
      exact stripL_kw_line "Given".data (c :: cs) (by decide) hsp hparts.2
    unfold parseGherkinLine
    rw [show pyStrip ⟨"  Given ".data ++ (c :: cs)⟩ = ⟨"Given ".data ++ (c :: cs)⟩
      from congrArg String.mk hstrip]
    rw [if_neg (by rw [show pyStartsWith ⟨"Given ".data ++ (c :: cs)⟩ "Feature:" =
      false from rfl]; simp)]
    rw [if_neg (by rw [show pyStartsWith ⟨"Given ".data ++ (c :: cs)⟩ "Scenario:" =
      false from rfl]; simp)]
    rw [if_pos (show pyStartsWith ⟨"Given ".data ++ (c :: cs)⟩ "Given" = true from rfl)]
    have hval : pyStrip (pyReplace ⟨"Given ".data ++ (c :: cs)⟩ "Given" "") = ⟨c :: cs⟩ := by
      show pyStrip ⟨replaceL "Given".data [] ("Given ".data ++ (c :: cs))⟩ = _
      rw [show ("Given ".data ++ (c :: cs)) = "Given".data ++ (' ' :: c :: cs) from rfl]
      rw [replace_kw_space "Given".data (c :: cs) (by decide) rfl h3]
      show (⟨stripL (' ' :: c :: cs)⟩ : String) = _
      rw [stripL_space_stripped (c :: cs) hparts.1 hparts.2]
    rw [hval]

theorem parseLine_when (st : ParseState) (w : String) (h1 : pyStrip w = w)
    (h3 : containsL "When".data w.data = false) :
    parseGherkinLine st ⟨"  When ".data ++ w.data⟩ =
      { st with whenSteps := st.whenSteps ++ [w], currentSection := some .strWhen } := by
  obtain ⟨wd⟩ := w
  cases wd with
  | nil => rfl
  | cons c cs =>
    have hne : (⟨c :: cs⟩ : String) ≠ "" := by
      intro e
      have e' : c :: cs = ([] : List Char) := congrArg String.data e
      simp at e'
    have hsp := exists_nonspace_of_stripped ⟨c :: cs⟩ h1 hne
    have hparts := stripL_eq_self_parts (c :: cs) (congrArg String.data h1)
    have hstrip : stripL ("  When ".data ++ (c :: cs)) = "When ".data ++ (c :: cs) := by
      show stripL (' ' :: ' ' :: ("When ".data ++ (c :: cs))) = _
      rw [stripL_cons_space ' ' rfl, stripL_cons_space ' ' rfl]
      exact stripL_kw_line "When".data (c :: cs) (by decide) hsp hparts.2
    unfold parseGherkinLine
    rw [show pyStrip ⟨"  When ".data ++ (c :: cs)⟩ = ⟨"When ".data ++ (c :: cs)⟩
      from congrArg String.mk hstrip]
    rw [if_neg (by rw [show pyStartsWith ⟨"When ".data ++ (c :: cs)⟩ "Feature:" =
      false from rfl]; simp)]
    rw [if_neg (by rw [show pyStartsWith ⟨"When ".data ++ (c :: cs)⟩ "Scenario:" =
      false from rfl]; simp)]
    rw [if_neg (by rw [show pyStartsWith ⟨"When ".data ++ (c :: cs)⟩ "Given" =
      false from rfl]; simp)]
    rw [if_pos (show pyStartsWith ⟨"When ".data ++ (c :: cs)⟩ "When" = true from rfl)]
    have hval : pyStrip (pyReplace ⟨"When ".data ++ (c :: cs)⟩ "When" "") = ⟨c :: cs⟩ := by
      show pyStrip ⟨replaceL "When".data [] ("When ".data ++ (c :: cs))⟩ = _
      rw [show ("When ".data ++ (c :: cs)) = "When".data ++ (' ' :: c :: cs) from rfl]
      rw [replace_kw_space "When".data (c :: cs) (by decide) rfl h3]
      show (⟨stripL (' ' :: c :: cs)⟩ : String) = _
      rw [stripL_space_stripped (c :: cs) hparts.1 hparts.2]
    rw [hval]

theorem parseLine_then (st : ParseState) (t : String) (h1 : pyStrip t = t)
    (h3 : containsL "Then".data t.data = false) :
    parseGherkinLine st ⟨"  Then ".data ++ t.data⟩ =
      { st with thenSteps := st.thenSteps ++ [t], currentSection := some .strThen } := by
  obtain ⟨td⟩ := t
  cases td with
  | nil => rfl
  | cons c cs =>
    have hne : (⟨c :: cs⟩ : String) ≠ "" := by
      intro e
      have e' : c :: cs = ([] : List Char) := congrArg String.data e
      simp at e'
    have hsp := exists_nonspace_of_stripped ⟨c :: cs⟩ h1 hne
    have hparts := stripL_eq_self_parts (c :: cs) (congrArg String.data h1)
    have hstrip : stripL ("  Then ".data ++ (c :: cs)) = "Then ".data ++ (c :: cs) := by
      show stripL (' ' :: ' ' :: ("Then ".data ++ (c :: cs))) = _
      rw [stripL_cons_space ' ' rfl, stripL_cons_space ' ' rfl]
      exact stripL_kw_line "Then".data (c :: cs) (by decide) hsp hparts.2
    unfold parseGherkinLine
    rw [show pyStrip ⟨"  Then ".data ++ (c :: cs)⟩ = ⟨"Then ".data ++ (c :: cs)⟩
      from congrArg String.mk hstrip]
    rw [if_neg (by rw [show pyStartsWith ⟨"Then ".data ++ (c :: cs)⟩ "Feature:" =
      false from rfl]; simp)]
    rw [if_neg (by rw [show pyStartsWith ⟨"Then ".data ++ (c :: cs)⟩ "Scenario:" =
      false from rfl]; simp)]
    rw [if_neg (by rw [show pyStartsWith ⟨"Then ".data ++ (c :: cs)⟩ "Given" =
      false from rfl]; simp)]
    rw [if_neg (by rw [show pyStartsWith ⟨"Then ".data ++ (c :: cs)⟩ "When" =
      false from rfl]; simp)]
    rw [if_pos (show pyStartsWith ⟨"Then ".data ++ (c :: cs)⟩ "Then" = true from rfl)]
    have hval : pyStrip (pyReplace ⟨"Then ".data ++ (c :: cs)⟩ "Then" "") = ⟨c :: cs⟩ := by
      show pyStrip ⟨replaceL "Then".data [] ("Then ".data ++ (c :: cs))⟩ = _
      rw [show ("Then ".data ++ (c :: cs)) = "Then".data ++ (' ' :: c :: cs) from rfl]
      rw [replace_kw_space "Then".data (c :: cs) (by decide) rfl h3]
      show (⟨stripL (' ' :: c :: cs)⟩ : String) = _
      rw [stripL_space_stripped (c :: cs) hparts.1 hparts.2]
    rw [hval]

theorem parseLine_feature (st : ParseState) (f : String) :
    ∃ x, parseGherkinLine st ⟨"Feature: ".data ++ f.data⟩ = { st with feature := x } := by
  have hguard : pyStartsWith (pyStrip ⟨"Feature: ".data ++ f.data⟩) "Feature:" = true := by
    show List.isPrefixOf "Feature:".data (stripL ("Feature: ".data ++ f.data)) = true
    unfold stripL
    rw [List.dropWhile_append]
    rw [show ("Feature: ".data.dropWhile isPySpace) = "Feature: ".data from rfl]
    rw [if_neg (by simp)]
    by_cases hall : ∀ c ∈ f.data, isPySpace c = true
    · rw [dropTrailWs_append_allspace _ _ hall]
      rfl
    · push_neg at hall
      obtain ⟨c, hc, hcs⟩ := hall
      have hcs' : isPySpace c = false := by
        revert hcs
        cases isPySpace c <;> simp
      rw [dropTrailWs_append_span _ _ ⟨c, hc, hcs'⟩]
      rw [show ("Feature: ".data ++ dropTrailWs f.data) =
        "Feature:".data ++ (' ' :: dropTrailWs f.data) from rfl]
      exact isPrefixOf_self_append _ _
  refine ⟨pyStrip (pyReplace (pyStrip ⟨"Feature: ".data ++ f.data⟩) "Feature:" ""), ?_⟩
  unfold parseGherkinLine
  rw [if_pos hguard]

/-! ### The parser over the encoder's step blocks -/

theorem parseAllL_given_block (gs : List String) (rest : List Char) (st : ParseState)
    (h : ∀ g ∈ gs, pyStrip g = g ∧ '\n' ∉ g.data ∧ containsL "Given".data g.data = false) :
    parseAllL st ((concatAll (gs.map (fun s => "  Given " ++ (s ++ "\n")))).data ++ rest) =
      parseAllL { st with
        givenSteps := st.givenSteps ++ gs,
        currentSection := (if gs.isEmpty then st.currentSection else some .given) } rest := by
  induction gs generalizing st with
  | nil =>
    rw [show ({ st with
      givenSteps := st.givenSteps ++ [],
      currentSection := (if ([] : List String).isEmpty then st.currentSection
        else some .given) } : ParseState) = st from by simp]
    rfl
  | cons g gs' ih =>
    obtain ⟨hg1, hg2, hg3⟩ := h g (List.mem_cons_self g gs')
    have hnl : '\n' ∉ "  Given ".data ++ g.data := by
      rw [List.mem_append]
      rintro (hm | hm)
      · revert hm
        decide
      · exact hg2 hm
    have hshape : (concatAll ((g :: gs').map (fun s => "  Given " ++ (s ++ "\n")))).data ++ rest =
        ("  Given ".data ++ g.data) ++
          '\n' :: ((concatAll (gs'.map (fun s => "  Given " ++ (s ++ "\n")))).data ++ rest) := by
      simp only [List.map_cons, concatAll, String.data_append,
        show ("\n" : String).data = ['\n'] from rfl, List.append_assoc, List.singleton_append,
        List.cons_append, List.nil_append]
    rw [hshape, parseAllL_line _ _ _ hnl, parseLine_given st g hg1 hg3,
      ih _ (fun x hx => h x (List.mem_cons_of_mem g hx))]
    congr 1
    simp

theorem parseAllL_when_block (ws : List String) (rest : List Char) (st : ParseState)
    (h : ∀ w ∈ ws, pyStrip w = w ∧ '\n' ∉ w.data ∧ containsL "When".data w.data = false) :
    parseAllL st ((concatAll (ws.map (fun s => "  When " ++ (s ++ "\n")))).data ++ rest) =
      parseAllL { st with
        whenSteps := st.whenSteps ++ ws,
        currentSection := (if ws.isEmpty then st.currentSection else some .strWhen) } rest := by
  induction ws generalizing st with
  | nil =>
    rw [show ({ st with
      whenSteps := st.whenSteps ++ [],
      currentSection := (if ([] : List String).isEmpty then st.currentSection
        else some .strWhen) } : ParseState) = st from by simp]
    rfl
  | cons w ws' ih =>
    obtain ⟨hw1, hw2, hw3⟩ := h w (List.mem_cons_self w ws')
    have hnl : '\n' ∉ "  When ".data ++ w.data := by
      rw [List.mem_append]
      rintro (hm | hm)
      · revert hm
        decide
      · exact hw2 hm
    have hshape : (concatAll ((w :: ws').map (fun s => "  When " ++ (s ++ "\n")))).data ++ rest =
        ("  When ".data ++ w.data) ++
          '\n' :: ((concatAll (ws'.map (fun s => "  When " ++ (s ++ "\n")))).data ++ rest) := by
      simp only [List.map_cons, concatAll, String.data_append,
        show ("\n" : String).data = ['\n'] from rfl, List.append_assoc, List.singleton_append,
        List.cons_append, List.nil_append]
    rw [hshape, parseAllL_line _ _ _ hnl, parseLine_when st w hw1 hw3,
      ih _ (fun x hx => h x (List.mem_cons_of_mem w hx))]
    congr 1
    simp

theorem parseAllL_then_block (ts : List String) (rest : List Char) (st : ParseState)
    (h : ∀ t ∈ ts, pyStrip t = t ∧ '\n' ∉ t.data ∧ containsL "Then".data t.data = false) :
    parseAllL st ((concatAll (ts.map (fun s => "  Then " ++ (s ++ "\n")))).data ++ rest) =
      parseAllL { st with
        thenSteps := st.thenSteps ++ ts,
        currentSection := (if ts.isEmpty then st.currentSection else some .strThen) } rest := by
  induction ts generalizing st with
  | nil =>
    rw [show ({ st with
      thenSteps := st.thenSteps ++ [],
      currentSection := (if ([] : List String).isEmpty then st.currentSection
        else some .strThen) } : ParseState) = st from by simp]
    rfl
  | cons t ts' ih =>
    obtain ⟨ht1, ht2, ht3⟩ := h t (List.mem_cons_self t ts')
    have hnl : '\n' ∉ "  Then ".data ++ t.data := by
      rw [List.mem_append]
      rintro (hm | hm)
      · revert hm
        decide
      · exact ht2 hm
    have hshape : (concatAll ((t :: ts').map (fun s => "  Then " ++ (s ++ "\n")))).data ++ rest =
        ("  Then ".data ++ t.data) ++
          '\n' :: ((concatAll (ts'.map (fun s => "  Then " ++ (s ++ "\n")))).data ++ rest) := by
      simp only [List.map_cons, concatAll, String.data_append,
        show ("\n" : String).data = ['\n'] from rfl, List.append_assoc, List.singleton_append,
        List.cons_append, List.nil_append]
    rw [hshape, parseAllL_line _ _ _ hnl, parseLine_then st t ht1 ht3,
      ih _ (fun x hx => h x (List.mem_cons_of_mem t hx))]
    congr 1
    simp

/-- C3 (amended): encode-then-decode preserves the scenario name and the
given/when/then step lists for every scenario whose feature text has no
newline and whose name and steps are trimmed, newline-free, and do not
contain their own keyword (`Scenario:` in the name, `Given`/`When`/`Then`
in the respective steps) — the conditions the counterexample shows are
necessary, since the decoder trims each line and removes every occurrence
of the keyword. -/
theorem c3_amended_roundtrip (sc : GherkinScenario)
    (hf : '\n' ∉ sc.feature.data)
    (hs1 : pyStrip sc.scenario = sc.scenario)
    (hs2 : '\n' ∉ sc.scenario.data)
    (hs3 : containsL "Scenario:".data sc.scenario.data = false)
    (hg : ∀ g ∈ sc.givenSteps,
      pyStrip g = g ∧ '\n' ∉ g.data ∧ containsL "Given".data g.data = false)
    (hw : ∀ w ∈ sc.whenSteps,
      pyStrip w = w ∧ '\n' ∉ w.data ∧ containsL "When".data w.data = false)
    (ht : ∀ t ∈ sc.thenSteps,
      pyStrip t = t ∧ '\n' ∉ t.data ∧ containsL "Then".data t.data = false) :
    (parseGherkinText (generateGherkinText sc)).scenario = sc.scenario ∧
    (parseGherkinText (generateGherkinText sc)).givenSteps = sc.givenSteps ∧
    (parseGherkinText (generateGherkinText sc)).whenSteps = sc.whenSteps ∧
    (parseGherkinText (generateGherkinText sc)).thenSteps = sc.thenSteps := by
  obtain ⟨x, hx⟩ := parseLine_feature initParseState sc.feature
  have hnlF : '\n' ∉ "Feature: ".data ++ sc.feature.data := by
    rw [List.mem_append]
    rintro (hm | hm)
    · revert hm
      decide
    · exact hf hm
  have hnlS : '\n' ∉ "Scenario: ".data ++ sc.scenario.data := by
    rw [List.mem_append]
    rintro (hm | hm)
    · revert hm
      decide
    · exact hs2 hm
  have main : parseAllL initParseState (generateGherkinText sc).data =
      { feature := x, scenario := sc.scenario, givenSteps := sc.givenSteps,
        whenSteps := sc.whenSteps, thenSteps := sc.thenSteps,
        currentSection :=
          (if sc.thenSteps.isEmpty then
            (if sc.whenSteps.isEmpty then
              (if sc.givenSteps.isEmpty then none else some .given)
             else some .strWhen)
           else some .strThen) } := by
    calc parseAllL initParseState (generateGherkinText sc).data
        = parseAllL initParseState (("Feature: ".data ++ sc.feature.data) ++ '\n' ::
            ('\n' :: (("Scenario: ".data ++ sc.scenario.data) ++ '\n' ::
              ((concatAll (sc.givenSteps.map (fun s => "  Given " ++ (s ++ "\n")))).data ++
                ((concatAll (sc.whenSteps.map (fun s => "  When " ++ (s ++ "\n")))).data ++
                  (concatAll (sc.thenSteps.map (fun s => "  Then " ++ (s ++ "\n")))).data))))) :=
          rfl
      _ = parseAllL (parseGherkinLine initParseState ⟨"Feature: ".data ++ sc.feature.data⟩)
            ('\n' :: (("Scenario: ".data ++ sc.scenario.data) ++ '\n' ::
              ((concatAll (sc.givenSteps.map (fun s => "  Given " ++ (s ++ "\n")))).data ++
                ((concatAll (sc.whenSteps.map (fun s => "  When " ++ (s ++ "\n")))).data ++
                  (concatAll (sc.thenSteps.map (fun s => "  Then " ++ (s ++ "\n")))).data)))) :=
          parseAllL_line _ _ _ hnlF
      _ = parseAllL { initParseState with feature := x }
            (("Scenario: ".data ++ sc.scenario.data) ++ '\n' ::
              ((concatAll (sc.givenSteps.map (fun s => "  Given " ++ (s ++ "\n")))).data ++
                ((concatAll (sc.whenSteps.map (fun s => "  When " ++ (s ++ "\n")))).data ++
                  (concatAll (sc.thenSteps.map (fun s => "  Then " ++ (s ++ "\n")))).data))) := by
          rw [hx, parseAllL_cons_space '\n' rfl]
      _ = parseAllL { { initParseState with feature := x } with scenario := sc.scenario }
            ((concatAll (sc.givenSteps.map (fun s => "  Given " ++ (s ++ "\n")))).data ++
              ((concatAll (sc.whenSteps.map (fun s => "  When " ++ (s ++ "\n")))).data ++
                (concatAll (sc.thenSteps.map (fun s => "  Then " ++ (s ++ "\n")))).data)) := by
          rw [parseAllL_line _ _ _ hnlS, parseLine_scenario _ sc.scenario hs1 hs3]
      _ = parseAllL { { { initParseState with feature := x } with scenario := sc.scenario } with
              givenSteps := { { initParseState with feature := x } with
                scenario := sc.scenario }.givenSteps ++ sc.givenSteps,
              currentSection := (if sc.givenSteps.isEmpty then
                { { initParseState with feature := x } with
                  scenario := sc.scenario }.currentSection else some .given) }
            ((concatAll (sc.whenSteps.map (fun s => "  When " ++ (s ++ "\n")))).data ++
              (concatAll (sc.thenSteps.map (fun s => "  Then " ++ (s ++ "\n")))).data) :=
          parseAllL_given_block sc.givenSteps _ _ hg
      _ = _ := by
          rw [parseAllL_when_block sc.whenSteps _ _ hw,
            show (concatAll (sc.thenSteps.map (fun s => "  Then " ++ (s ++ "\n")))).data =
              (concatAll (sc.thenSteps.map (fun s => "  Then " ++ (s ++ "\n")))).data ++ []
            from (List.append_nil _).symm,
            parseAllL_then_block sc.thenSteps _ _ ht, parseAllL_nil]
          simp [initParseState]
  rw [parseGherkinText_eq_parseAllL, parseAllL_stripL, main]
  simp

/-- A concrete keyword-free scenario for the round-trip witness. -/
def c3WitnessScenario : GherkinScenario :=
  { feature := "API", scenario := "Fetch users", givenSteps := ["an endpoint"],
    whenSteps := ["it is called"], thenSteps := ["it returns data"] }

/-- Witness for the amended C3 at `c3WitnessScenario`: the name and all
step lists survive the encode/decode round trip. -/
theorem c3_amended_roundtrip_witness :
    (parseGherkinText (generateGherkinText c3WitnessScenario)).scenario = "Fetch users" ∧
    (parseGherkinText (generateGherkinText c3WitnessScenario)).givenSteps = ["an endpoint"] ∧
    (parseGherkinText (generateGherkinText c3WitnessScenario)).whenSteps = ["it is called"] ∧
    (parseGherkinText (generateGherkinText c3WitnessScenario)).thenSteps = ["it returns data"] :=
  c3_amended_roundtrip c3WitnessScenario (by decide) rfl (by decide) (by decide)
    (by decide) (by decide) (by decide)

/-! ## C8: reporter on an empty log -/

/-- C8: over an empty result log the computed pass rate is `0` (the
divide-by-zero guard takes the `else 0` branch), and the summary report
still carries the `- Success Rate: 0.0%` line. -/
theorem c8_empty_log_pass_rate (now : String) :
    passRate [] = 0 ∧
    pyContains (generateTestReport [] now) "- Success Rate: 0.0%" = true := by
  refine ⟨rfl, ?_⟩
  apply pyContains_append_right
  apply pyContains_append_right
  apply pyContains_append_right
  rfl

end Phoenix
